import Mathlib

/-!
Verification of the usfmp USFM parser (package `usfm`, file parser.go, with
the data model of types.go).

Modelling conventions:
* Go strings are modelled as lists of characters (`GoStr`); the input to
  `Parse` is the list of lines produced by the line scanner (each line
  carries no newline character).
* Go slices distinguish a nil slice from an empty one.  Every slice field
  of the parser's output except `Document.TableOfContents` is created with
  `make(..., 0)` (never nil), so those are modelled as plain lists;
  `TableOfContents` starts as the zero value nil and is modelled as an
  `Option (List TOCEntry)` (`none` = nil), appended to with Go `append`.
* `strconv.Atoi` is modelled by `goAtoi` (optional sign, decimal digits,
  64-bit signed range).
* The three regular expressions of the parser are modelled by hand-written
  matchers with Go `regexp` (leftmost, greedy/lazy) submatch semantics:
  `markerMatch` for markerRegex and `matchAt` for footnoteRegex
  (chapterRegex and verseRegex are compiled by NewParser but never used).
* `Document.ParsedAt` (a wall-clock timestamp) is not modelled.
-/

namespace Usfmp

deriving instance DecidableEq for Except

/-- A Go string as a list of characters. -/
abbrev GoStr := List Char

/-- Convenience conversion from a Lean string literal. -/
def str (x : String) : GoStr := x.data

/-- Go `unicode.IsSpace`: the Unicode White_Space property. -/
def goIsSpace (c : Char) : Bool :=
  c = ' ' || c = '\t' || c = '\n' || c = '\x0b' || c = '\x0c' || c = '\r' ||
  c = '\u0085' || c = '\u00a0' || c = '\u1680' ||
  ('\u2000' ≤ c && c ≤ '\u200a') || c = '\u2028' || c = '\u2029' ||
  c = '\u202f' || c = '\u205f' || c = '\u3000'

/-- The character class `\s` of Go's regexp (RE2 Perl class): `[\t\n\f\r ]`. -/
def reSpace (c : Char) : Bool :=
  c = '\t' || c = '\n' || c = '\x0c' || c = '\r' || c = ' '

/-- A marker tag character, the class `[a-z0-9]` of markerRegex. -/
def isTagChar (c : Char) : Bool :=
  ('a' ≤ c && c ≤ 'z') || ('0' ≤ c && c ≤ '9')

/-- A decimal digit. -/
def isDigitChar (c : Char) : Bool := '0' ≤ c && c ≤ '9'

/-- Go `strings.TrimSpace`: drop Unicode white space from both ends. -/
def trimSpace (xs : GoStr) : GoStr :=
  ((xs.dropWhile goIsSpace).reverse.dropWhile goIsSpace).reverse

/-- Value of a list of decimal digits. -/
def digitsToNat (ds : GoStr) : Nat :=
  ds.foldl (fun a c => 10 * a + (c.toNat - 48)) 0

/-- The optional sign of `strconv.Atoi`: the sign value and the digit
part. -/
def atoiSign (s : GoStr) : Int × GoStr :=
  match s with
  | '+' :: t => (1, t)
  | '-' :: t => (-1, t)
  | t => (1, t)

/-- Go `strconv.Atoi`: optional sign, one or more decimal digits, result
within the 64-bit signed integer range; anything else is an error (`none`). -/
def goAtoi (s : GoStr) : Option Int :=
  if (atoiSign s).2 = [] then none
  else if (atoiSign s).2.all isDigitChar then
    let v : Int := (atoiSign s).1 * (digitsToNat (atoiSign s).2 : Int)
    if -(2 ^ 63) ≤ v ∧ v ≤ 2 ^ 63 - 1 then some v else none
  else none

/-! ## Data model (types.go) -/

/-- A table-of-contents entry (`TOCEntry`). -/
structure TOCEntry where
  level : Int
  text : GoStr
deriving DecidableEq, Repr

/-- A footnote (`Footnote`): caller, reference and text segments. -/
structure Footnote where
  caller : GoStr
  reference : GoStr
  text : GoStr
deriving DecidableEq, Repr

/-- A verse (`Verse`).  `footnotes` is an `Option` because a Go slice may be
nil; parseVerse always creates it with `make([]Footnote, 0)`, never nil. -/
structure Verse where
  number : Int
  text : GoStr
  footnotes : Option (List Footnote)
deriving DecidableEq, Repr

/-- A section (`Section`); `reference` is the `\r` cross-reference text,
empty when absent (the Go zero value). -/
structure Section where
  level : Int
  title : GoStr
  reference : GoStr
  verses : List Verse
deriving DecidableEq, Repr

/-- A chapter (`Chapter`). -/
structure Chapter where
  number : Int
  sections : List Section
deriving DecidableEq, Repr

/-- The document (`Document`).  `tableOfContents` is `none` while the Go
slice is nil: `Parse` initializes `Chapters` with `make` but leaves
`TableOfContents` at its zero value.  `ParsedAt` is not modelled. -/
structure Document where
  id : GoStr
  header : GoStr
  tableOfContents : Option (List TOCEntry)
  mainTitle : GoStr
  chapters : List Chapter
  sourceFile : GoStr
deriving DecidableEq, Repr

/-- A tokenized marker (`Marker`). -/
structure Marker where
  tag : GoStr
  content : GoStr
  line : Nat
deriving DecidableEq, Repr

/-- Parser configuration (`ParseOptions`). -/
structure ParseOptions where
  strictMode : Bool
  includeFootnotes : Bool
  includeReferences : Bool
deriving DecidableEq, Repr

/-- `DefaultParseOptions()`: lenient mode, footnotes and references on. -/
def defaultParseOptions : ParseOptions :=
  { strictMode := false, includeFootnotes := true, includeReferences := true }

/-- The kind of a parse error (the `fmt.Errorf` messages of parser.go). -/
inductive ParseErrKind where
  | notAMarker
  | invalidMarkerFormat
  | invalidChapterNumber
  | invalidVerseNumber
  | invalidVerseFormat
  | unknownMarker (tag : GoStr)
deriving DecidableEq, Repr

/-- A fatal parse error: the 1-based source line number and the kind
(`fmt.Errorf("line %d: %w", lineNumber, err)`). -/
structure ParseErr where
  line : Nat
  kind : ParseErrKind
deriving DecidableEq, Repr

/-! ## Marker tokenizer (parseMarker, markerRegex) -/

/-- The optional end-marker symbol `\*?` of markerRegex: consume one
leading `*` when present. -/
def starStrip (r : GoStr) : GoStr :=
  match r with
  | '*' :: t => t
  | _ => r

/-- markerRegex `^\\([a-z0-9]+)\*?\s*(.*)` applied at the start of a line:
on a match, the two submatches (tag, rest).  The tag run is greedy, the
optional `*` is consumed when present, `\s*` greedily eats white space, and
`(.*)` captures up to the next newline or the end. -/
def markerMatch (line : GoStr) : Option (GoStr × GoStr) :=
  match line with
  | '\\' :: rest =>
    let tag := rest.takeWhile isTagChar
    if tag = [] then none
    else
      some (tag,
        ((starStrip (rest.dropWhile isTagChar)).dropWhile reSpace).takeWhile
          (fun c => c ≠ '\n'))
  | _ => none

/-- `parseMarker` without the record assembly: the line must start with the
marker introducer (`strings.HasPrefix(line, "\\")`), then markerRegex must
match; the content submatch is trimmed.  Returns (tag, content). -/
def parseMarkerCore (line : GoStr) : Except ParseErrKind (GoStr × GoStr) :=
  if line.take 1 = ['\\'] then
    match markerMatch line with
    | some p => .ok (p.1, trimSpace p.2)
    | none => .error .invalidMarkerFormat
  else .error .notAMarker

/-- `parseMarker`: tokenize one line into a `Marker` record. -/
def parseMarker (line : GoStr) (lineNumber : Nat) : Except ParseErrKind Marker :=
  match parseMarkerCore line with
  | .ok p => .ok { tag := p.1, content := p.2, line := lineNumber }
  | .error e => .error e

/-- `parseChapter`: `strconv.Atoi(strings.TrimSpace(content))`. -/
def parseChapter (content : GoStr) : Except ParseErrKind Int :=
  match goAtoi (trimSpace content) with
  | some num => .ok num
  | none => .error .invalidChapterNumber

/-- `strings.SplitN(content, " ", 2)`: the part before the first space, and
the remainder after it when a space exists. -/
def splitN2Space (s : GoStr) : GoStr × Option GoStr :=
  match s.dropWhile (fun c => c ≠ ' ') with
  | [] => (s, none)
  | _ :: t => (s.takeWhile (fun c => c ≠ ' '), some t)

/-! ## Footnote extraction (footnoteRegex, extractFootnotes,
removeFootnoteMarkers) -/

/-- footnoteRegex `\\f\s*([^\\]*?)\\fr\s*([^\\]*?)\\ft\s*([^\\]*?)\\f\*`
attempted at the start of `s`: literal `\f`, greedy `\s*`, lazy non-backslash
caller up to literal `\fr`, greedy `\s*`, lazy non-backslash reference up to
literal `\ft`, greedy `\s*`, lazy non-backslash text up to literal `\f*`.
A lazy `[^\\]*?` group must stop at the first backslash after it, where the
following literal must match, so the match is deterministic.  On success:
the three submatches and the remainder after the match. -/
def matchAt (s : GoStr) : Option (GoStr × GoStr × GoStr × GoStr) :=
  match s with
  | '\\' :: 'f' :: r0 =>
    let r1 := r0.dropWhile reSpace
    let c1 := r1.takeWhile (fun c => c ≠ '\\')
    match r1.dropWhile (fun c => c ≠ '\\') with
    | '\\' :: 'f' :: 'r' :: r2 =>
      let r3 := r2.dropWhile reSpace
      let c2 := r3.takeWhile (fun c => c ≠ '\\')
      match r3.dropWhile (fun c => c ≠ '\\') with
      | '\\' :: 'f' :: 't' :: r4 =>
        let r5 := r4.dropWhile reSpace
        let c3 := r5.takeWhile (fun c => c ≠ '\\')
        match r5.dropWhile (fun c => c ≠ '\\') with
        | '\\' :: 'f' :: '*' :: r6 => some (c1, c2, c3, r6)
        | _ => none
      | _ => none
    | _ => none
  | _ => none

/-- `FindAllStringSubmatch(text, -1)` over footnoteRegex, each match turned
into a `Footnote` with the three segments trimmed (extractFootnotes' loop).
Scans left to right for the leftmost match, then continues after it
(non-overlapping).  `fuel` bounds the recursion; every step strictly
shortens the string, so `text.length` fuel is never exhausted. -/
def findFootnotesAux : Nat → GoStr → List Footnote
  | 0, _ => []
  | _ + 1, [] => []
  | fuel + 1, c :: rest =>
    match matchAt (c :: rest) with
    | some (c1, c2, c3, r) =>
      { caller := trimSpace c1, reference := trimSpace c2, text := trimSpace c3 } ::
        findFootnotesAux fuel r
    | none => findFootnotesAux fuel rest

/-- `extractFootnotes`: every footnote block of the verse text, in order. -/
def extractFootnotes (text : GoStr) : List Footnote :=
  findFootnotesAux text.length text

/-- `footnoteRegex.ReplaceAllString(text, "")`: delete every
(non-overlapping, leftmost) footnote block. -/
def removeBlocksAux : Nat → GoStr → GoStr
  | 0, s => s
  | _ + 1, [] => []
  | fuel + 1, c :: rest =>
    match matchAt (c :: rest) with
    | some (_, _, _, r) => removeBlocksAux fuel r
    | none => c :: removeBlocksAux fuel rest

/-- One pass of `strings.ReplaceAll(s, "  ", " ")`: non-overlapping
left-to-right replacement of each double space by a single space. -/
def replaceDouble : GoStr → GoStr
  | ' ' :: ' ' :: rest => ' ' :: replaceDouble rest
  | c :: rest => c :: replaceDouble rest
  | [] => []

/-- `strings.Contains(s, "  ")`. -/
def containsDouble : GoStr → Bool
  | ' ' :: ' ' :: _ => true
  | _ :: rest => containsDouble rest
  | [] => false

/-- The cleanup loop of removeFootnoteMarkers:
`for strings.Contains(cleaned, "  ") { cleaned = ReplaceAll(cleaned, "  ", " ") }`.
Each iteration strictly shortens the string, so `s.length` fuel suffices. -/
def collapseAux : Nat → GoStr → GoStr
  | 0, s => s
  | fuel + 1, s => if containsDouble s then collapseAux fuel (replaceDouble s) else s

/-- Collapse every run of two or more spaces (the fixpoint of the loop). -/
def collapseSpaces (s : GoStr) : GoStr := collapseAux s.length s

/-- `removeFootnoteMarkers`: delete footnote blocks, collapse double
spaces, trim. -/
def removeFootnoteMarkers (text : GoStr) : GoStr :=
  trimSpace (collapseSpaces (removeBlocksAux text.length text))

/-! ## Verse parsing (parseVerse) -/

/-- The raw verse body: the remainder of the verse marker content after the
numeric token split off by `SplitN(content, " ", 2)` (empty when the marker
had no body). -/
def rawBody (content : GoStr) : GoStr :=
  match splitN2Space content with
  | (_, some rest) => rest
  | (_, none) => []

/-- `parseVerse`: split off the verse-number token at the first space, parse
it with Atoi (failure is `invalid verse number`), then either clean the text
and extract footnotes (includeFootnotes) or keep the raw body verbatim.
`Footnotes` is created with `make([]Footnote, 0)`, never nil.  (The
`len(parts) < 1` check of the source is dead code: SplitN always returns at
least one element.) -/
def parseVerse (content : GoStr) (includeFootnotes : Bool) :
    Except ParseErrKind Verse :=
  match goAtoi (splitN2Space content).1 with
  | none => .error .invalidVerseNumber
  | some verseNum =>
    let verseText := rawBody content
    if includeFootnotes then
      .ok { number := verseNum, text := removeFootnoteMarkers verseText,
            footnotes := some (extractFootnotes verseText) }
    else
      .ok { number := verseNum, text := verseText, footnotes := some [] }

/-- `getSectionLevel`: numeric level of a section tag, 1 as fallback. -/
def getSectionLevel (tag : GoStr) : Int :=
  if tag = str "s1" then 1
  else if tag = str "s2" then 2
  else if tag = str "s3" then 3
  else 1

/-! ## The parse state machine (Parse) -/

/-- Go `append` on a possibly-nil slice: the result is never nil. -/
def goAppend (xs : Option (List α)) (x : α) : Option (List α) :=
  some (xs.getD [] ++ [x])

/-- The transitional state of one `Parse` invocation: the accumulating
document and the nullable `currentChapter` / `currentSection` cursors. -/
structure ParseState where
  doc : Document
  currentChapter : Option Chapter
  currentSection : Option Section
deriving DecidableEq, Repr

/-- The `case "c"` body after a successful `parseChapter`: flush the open
section into the open chapter (only when both exist), flush the open
chapter into the document, then open a fresh chapter and clear the
section cursor. -/
def startChapter (st : ParseState) (chapterNum : Int) : ParseState :=
  let st1 :=
    match st.currentSection, st.currentChapter with
    | some sec, some ch =>
      { st with currentChapter := some { ch with sections := ch.sections ++ [sec] } }
    | _, _ => st
  let st2 :=
    match st1.currentChapter with
    | some ch => { st1 with doc := { st1.doc with chapters := st1.doc.chapters ++ [ch] } }
    | none => st1
  { st2 with
    currentChapter := some { number := chapterNum, sections := [] },
    currentSection := none }

/-- The `case "s1", "s2", "s3"` body: flush the open section into the open
chapter (only when both exist) and open a fresh section with the given
level and title (reference is the zero value, verses empty). -/
def startSection (st : ParseState) (level : Int) (title : GoStr) : ParseState :=
  let st1 :=
    match st.currentSection, st.currentChapter with
    | some sec, some ch =>
      { st with currentChapter := some { ch with sections := ch.sections ++ [sec] } }
    | _, _ => st
  { st1 with
    currentSection := some { level := level, title := title, reference := [], verses := [] } }

/-- The `case "r"` body: record the cross-reference on the open section,
only when reference inclusion is enabled and a section is open. -/
def setReference (opts : ParseOptions) (st : ParseState) (content : GoStr) : ParseState :=
  if opts.includeReferences then
    match st.currentSection with
    | some sec => { st with currentSection := some { sec with reference := content } }
    | none => st
  else st

/-- The `case "v"` body after a successful `parseVerse`: synthesize an
implicit section (level 1, empty title) when none is open, then append the
verse to the open section. -/
def addVerse (st : ParseState) (verse : Verse) : ParseState :=
  let sec :=
    match st.currentSection with
    | some sec => sec
    | none => { level := 1, title := [], reference := [], verses := [] }
  { st with currentSection := some { sec with verses := sec.verses ++ [verse] } }

/-- One iteration of the scanner loop of `Parse`: trim the line, skip it
when blank, tokenize it (a tokenization failure is fatal only in strict
mode), then dispatch on the tag exactly as the Go `switch` does. -/
def processLine (opts : ParseOptions) (st : ParseState) (lineNumber : Nat)
    (rawLine : GoStr) : Except ParseErr ParseState :=
  if trimSpace rawLine = [] then .ok st
  else
    match parseMarkerCore (trimSpace rawLine) with
    | .error e => if opts.strictMode then .error { line := lineNumber, kind := e } else .ok st
    | .ok (tag, content) =>
      if tag = str "id" then .ok { st with doc := { st.doc with id := content } }
      else if tag = str "h" then .ok { st with doc := { st.doc with header := content } }
      else if tag = str "toc1" then
        .ok { st with doc := { st.doc with
          tableOfContents := goAppend st.doc.tableOfContents { level := 1, text := content } } }
      else if tag = str "toc2" then
        .ok { st with doc := { st.doc with
          tableOfContents := goAppend st.doc.tableOfContents { level := 2, text := content } } }
      else if tag = str "toc3" then
        .ok { st with doc := { st.doc with
          tableOfContents := goAppend st.doc.tableOfContents { level := 3, text := content } } }
      else if tag = str "mt1" then .ok { st with doc := { st.doc with mainTitle := content } }
      else if tag = str "c" then
        match parseChapter content with
        | .error k => .error { line := lineNumber, kind := k }
        | .ok chapterNum => .ok (startChapter st chapterNum)
      else if tag = str "s1" ∨ tag = str "s2" ∨ tag = str "s3" then
        .ok (startSection st (getSectionLevel tag) content)
      else if tag = str "r" then .ok (setReference opts st content)
      else if tag = str "v" then
        match parseVerse content opts.includeFootnotes with
        | .error k => .error { line := lineNumber, kind := k }
        | .ok verse => .ok (addVerse st verse)
      else if opts.strictMode then
        .error { line := lineNumber, kind := .unknownMarker tag }
      else .ok st

/-- The final flush of `Parse`: append a still-open section to the open
chapter (only when both exist), then a still-open chapter to the document. -/
def finalFlush (st : ParseState) : Document :=
  let st1 :=
    match st.currentSection, st.currentChapter with
    | some sec, some ch =>
      { st with currentChapter := some { ch with sections := ch.sections ++ [sec] } }
    | _, _ => st
  match st1.currentChapter with
  | some ch => { st1.doc with chapters := st1.doc.chapters ++ [ch] }
  | none => st1.doc

/-- The scanner loop: process each line in turn, incrementing the 1-based
line counter, stopping at the first fatal error. -/
def parseLines (opts : ParseOptions) : ParseState → Nat → List GoStr →
    Except ParseErr ParseState
  | st, _, [] => .ok st
  | st, n, l :: ls =>
    match processLine opts st (n + 1) l with
    | .error e => .error e
    | .ok st1 => parseLines opts st1 (n + 1) ls

/-- The document as `Parse` initializes it: `Chapters` is `make`d (empty,
non-nil), `TableOfContents` is left at the nil zero value. -/
def initState (sourceFile : GoStr) : ParseState :=
  { doc := { id := [], header := [], tableOfContents := none, mainTitle := [],
             chapters := [], sourceFile := sourceFile },
    currentChapter := none, currentSection := none }

/-- `Parse`: run the scanner loop over the input lines from a fresh state,
then perform the final flush.  On a fatal error no document is returned. -/
def Parse (opts : ParseOptions) (lines : List GoStr) (sourceFile : GoStr) :
    Except ParseErr Document :=
  match parseLines opts (initState sourceFile) 0 lines with
  | .error e => .error e
  | .ok st => .ok (finalFlush st)

/-! ## Line classification

`processLine` returns an error, or not, independently of the state and of
the line number: whether a line is fatal depends only on the line's text
and the options.  `classify` analyses one line into the action the Go
`switch` takes on it; `lineErr` gives the error kind a line produces
(`none` when the line is processed without error) and `lineStep` the state
transformation it performs (the identity on fatal or skipped lines).  The
characterization theorem `processLine_eq` proves `processLine` equal to
their combination. -/

/-- The action the dispatch switch takes on one line. -/
inductive LineAction where
  | blank
  | badMarker (e : ParseErrKind)
  | setId (content : GoStr)
  | setHeader (content : GoStr)
  | addToc (level : Int) (content : GoStr)
  | setMainTitle (content : GoStr)
  | chapterRes (res : Except ParseErrKind Int)
  | secHead (level : Int) (title : GoStr)
  | refSet (content : GoStr)
  | verseRes (res : Except ParseErrKind Verse)
  | unknown (tag : GoStr)
deriving DecidableEq, Repr

/-- Classify one raw line as the dispatch switch of `Parse` sees it
(`inc` is the includeFootnotes option, which verse parsing consumes). -/
def classify (inc : Bool) (rawLine : GoStr) : LineAction :=
  if trimSpace rawLine = [] then .blank
  else
    match parseMarkerCore (trimSpace rawLine) with
    | .error e => .badMarker e
    | .ok (tag, content) =>
      if tag = str "id" then .setId content
      else if tag = str "h" then .setHeader content
      else if tag = str "toc1" then .addToc 1 content
      else if tag = str "toc2" then .addToc 2 content
      else if tag = str "toc3" then .addToc 3 content
      else if tag = str "mt1" then .setMainTitle content
      else if tag = str "c" then .chapterRes (parseChapter content)
      else if tag = str "s1" ∨ tag = str "s2" ∨ tag = str "s3" then
        .secHead (getSectionLevel tag) content
      else if tag = str "r" then .refSet content
      else if tag = str "v" then .verseRes (parseVerse content inc)
      else .unknown tag

/-- The error kind, if any, a single line produces under `opts`. -/
def lineErr (opts : ParseOptions) (rawLine : GoStr) : Option ParseErrKind :=
  match classify opts.includeFootnotes rawLine with
  | .badMarker e => if opts.strictMode then some e else none
  | .chapterRes (.error k) => some k
  | .verseRes (.error k) => some k
  | .unknown tag => if opts.strictMode then some (.unknownMarker tag) else none
  | _ => none

/-- The state transformation a single line performs (identity on lines
that are blank, fatal, skipped or unknown). -/
def lineStep (opts : ParseOptions) (st : ParseState) (rawLine : GoStr) : ParseState :=
  match classify opts.includeFootnotes rawLine with
  | .blank => st
  | .badMarker _ => st
  | .setId c => { st with doc := { st.doc with id := c } }
  | .setHeader c => { st with doc := { st.doc with header := c } }
  | .addToc lvl c =>
    { st with doc := { st.doc with
      tableOfContents := goAppend st.doc.tableOfContents { level := lvl, text := c } } }
  | .setMainTitle c => { st with doc := { st.doc with mainTitle := c } }
  | .chapterRes (.error _) => st
  | .chapterRes (.ok num) => startChapter st num
  | .secHead lvl t => startSection st lvl t
  | .refSet c => setReference opts st c
  | .verseRes (.error _) => st
  | .verseRes (.ok v) => addVerse st v
  | .unknown _ => st

/-! ## Line predicates used by the statements of the properties -/

/-- The tokenization of one raw line as the scanner loop sees it: `none`
when the trimmed line is blank (skipped), otherwise the tokenizer result. -/
def lineTok (rawLine : GoStr) : Option (Except ParseErrKind (GoStr × GoStr)) :=
  if trimSpace rawLine = [] then none else some (parseMarkerCore (trimSpace rawLine))

/-- The (tag, content) of a line that tokenizes successfully. -/
def lineTag (rawLine : GoStr) : Option (GoStr × GoStr) :=
  match lineTok rawLine with
  | some (.ok p) => some p
  | _ => none

/-- The tags the dispatch switch recognizes. -/
def recognizedTag (tag : GoStr) : Bool :=
  tag = str "id" || tag = str "h" || tag = str "toc1" || tag = str "toc2" ||
  tag = str "toc3" || tag = str "mt1" || tag = str "c" || tag = str "s1" ||
  tag = str "s2" || tag = str "s3" || tag = str "r" || tag = str "v"

/-- Is this line a `\c` chapter marker line? -/
def isCLine (rawLine : GoStr) : Bool :=
  match lineTag rawLine with
  | some (tag, _) => tag = str "c"
  | none => false

/-- Is this line a `\toc1`/`\toc2`/`\toc3` marker line? -/
def isTocLine (rawLine : GoStr) : Bool :=
  match lineTag rawLine with
  | some (tag, _) => tag = str "toc1" || tag = str "toc2" || tag = str "toc3"
  | none => false

/-- Is this line a `\v` or `\s1`/`\s2`/`\s3` marker line? -/
def isVSLine (rawLine : GoStr) : Bool :=
  match lineTag rawLine with
  | some (tag, _) => tag = str "v" || tag = str "s1" || tag = str "s2" || tag = str "s3"
  | none => false

/-- A `\c` marker line whose content does not parse as an integer. -/
def badCLine (rawLine : GoStr) : Bool :=
  match lineTag rawLine with
  | some (tag, content) => tag = str "c" && (goAtoi (trimSpace content)).isNone
  | none => false

/-- A `\v` marker line whose first whitespace-delimited token does not
parse as an integer. -/
def badVLine (rawLine : GoStr) : Bool :=
  match lineTag rawLine with
  | some (tag, content) =>
    tag = str "v" && (goAtoi (content.takeWhile (fun c => !goIsSpace c))).isNone
  | none => false

/-- The chapter numbers contributed by one line: a `\c` marker line whose
content parses contributes its number, every other line contributes
nothing. -/
def cNumsOfLine (rawLine : GoStr) : List Int :=
  match lineTag rawLine with
  | some (tag, content) =>
    if tag = str "c" then
      match parseChapter content with
      | .ok n => [n]
      | .error _ => []
    else []
  | none => []

/-- The chapter numbers of all `\c` marker lines of the input, in source
encounter order. -/
def cMarkerNums (lines : List GoStr) : List Int :=
  lines.foldr (fun l acc => cNumsOfLine l ++ acc) []

/-- The chapter numbers recorded in a parse state: the flushed chapters of
the document followed by the still-open chapter. -/
def chapNums (st : ParseState) : List Int :=
  st.doc.chapters.map Chapter.number ++
    (match st.currentChapter with
     | some ch => [ch.number]
     | none => [])

/-- All verses of a chapter, in order. -/
def chapterVerses (ch : Chapter) : List Verse :=
  ch.sections.foldr (fun s acc => s.verses ++ acc) []

/-- All verses of a document, in order. -/
def docVerses (d : Document) : List Verse :=
  d.chapters.foldr (fun ch acc => chapterVerses ch ++ acc) []

/-- All verses reachable from a parse state: those already in the
document, those of the open chapter and those of the open section. -/
def stateVerses (st : ParseState) : List Verse :=
  docVerses st.doc ++
    (match st.currentChapter with
     | some ch => chapterVerses ch
     | none => []) ++
    (match st.currentSection with
     | some s => s.verses
     | none => [])

/-- No suffix of `s` begins a footnote-block match: the footnote pattern
does not match anywhere in `s`. -/
def noMatchAux : GoStr → Bool
  | [] => true
  | c :: rest => (matchAt (c :: rest)).isNone && noMatchAux rest

/-! ## Inversion view of `classify`

`ClassifyView inc l a` records, for each dispatch action `a`, the
tokenizer-level facts that force `classify inc l = a`; the theorem
`classify_view` below inverts `classify`. -/

inductive ClassifyView (inc : Bool) (l : GoStr) : LineAction → Prop where
  | blank (h0 : trimSpace l = []) : ClassifyView inc l .blank
  | badMarker (e : ParseErrKind) (h0 : ¬trimSpace l = [])
      (hm : parseMarkerCore (trimSpace l) = .error e) :
      ClassifyView inc l (.badMarker e)
  | setId (c : GoStr) (h0 : ¬trimSpace l = [])
      (hm : parseMarkerCore (trimSpace l) = .ok (str "id", c)) :
      ClassifyView inc l (.setId c)
  | setHeader (c : GoStr) (h0 : ¬trimSpace l = [])
      (hm : parseMarkerCore (trimSpace l) = .ok (str "h", c)) :
      ClassifyView inc l (.setHeader c)
  | addToc (lvl : Int) (c : GoStr) (tag : GoStr) (h0 : ¬trimSpace l = [])
      (hm : parseMarkerCore (trimSpace l) = .ok (tag, c))
      (htag : (tag = str "toc1" ∧ lvl = 1) ∨ (tag = str "toc2" ∧ lvl = 2) ∨
              (tag = str "toc3" ∧ lvl = 3)) :
      ClassifyView inc l (.addToc lvl c)
  | setMainTitle (c : GoStr) (h0 : ¬trimSpace l = [])
      (hm : parseMarkerCore (trimSpace l) = .ok (str "mt1", c)) :
      ClassifyView inc l (.setMainTitle c)
  | chapterRes (content : GoStr) (h0 : ¬trimSpace l = [])
      (hm : parseMarkerCore (trimSpace l) = .ok (str "c", content)) :
      ClassifyView inc l (.chapterRes (parseChapter content))
  | secHead (tag : GoStr) (t : GoStr) (h0 : ¬trimSpace l = [])
      (hm : parseMarkerCore (trimSpace l) = .ok (tag, t))
      (htag : tag = str "s1" ∨ tag = str "s2" ∨ tag = str "s3") :
      ClassifyView inc l (.secHead (getSectionLevel tag) t)
  | refSet (c : GoStr) (h0 : ¬trimSpace l = [])
      (hm : parseMarkerCore (trimSpace l) = .ok (str "r", c)) :
      ClassifyView inc l (.refSet c)
  | verseRes (content : GoStr) (h0 : ¬trimSpace l = [])
      (hm : parseMarkerCore (trimSpace l) = .ok (str "v", content)) :
      ClassifyView inc l (.verseRes (parseVerse content inc))
  | unknown (tag : GoStr) (c : GoStr) (h0 : ¬trimSpace l = [])
      (hm : parseMarkerCore (trimSpace l) = .ok (tag, c))
      (hrec : recognizedTag tag = false) :
      ClassifyView inc l (.unknown tag)

/-! ## Characterization of the scanner loop -/

/-- `processLine` factors into the state-independent error classification
`lineErr` and the state transformation `lineStep`. -/
theorem processLine_eq (opts : ParseOptions) (st : ParseState) (n : Nat) (l : GoStr) :
    processLine opts st n l =
      match lineErr opts l with
      | some k => .error { line := n, kind := k }
      | none => .ok (lineStep opts st l) := by
  rw [processLine.eq_def, lineErr.eq_def, lineStep.eq_def, classify.eq_def]
  by_cases h0 : trimSpace l = []
  · simp only [if_pos h0]
  · simp only [if_neg h0]
    rcases hm : parseMarkerCore (trimSpace l) with e | ⟨tag, content⟩
    · simp only [hm]
      by_cases hs : opts.strictMode
      · simp only [if_pos hs]
      · simp only [if_neg hs]
    · simp only [hm]
      by_cases h1 : tag = str "id"
      · simp only [if_pos h1]
      · simp only [if_neg h1]
        by_cases h2 : tag = str "h"
        · simp only [if_pos h2]
        · simp only [if_neg h2]
          by_cases h3 : tag = str "toc1"
          · simp only [if_pos h3]
          · simp only [if_neg h3]
            by_cases h4 : tag = str "toc2"
            · simp only [if_pos h4]
            · simp only [if_neg h4]
              by_cases h5 : tag = str "toc3"
              · simp only [if_pos h5]
              · simp only [if_neg h5]
                by_cases h6 : tag = str "mt1"
                · simp only [if_pos h6]
                · simp only [if_neg h6]
                  by_cases h7 : tag = str "c"
                  · simp only [if_pos h7]
                    rcases hc : parseChapter content with k | num <;> simp only [hc]
                  · simp only [if_neg h7]
                    by_cases h8 : tag = str "s1" ∨ tag = str "s2" ∨ tag = str "s3"
                    · simp only [if_pos h8]
                    · simp only [if_neg h8]
                      by_cases h9 : tag = str "r"
                      · simp only [if_pos h9]
                      · simp only [if_neg h9]
                        by_cases h10 : tag = str "v"
                        · simp only [if_pos h10]
                          rcases hv : parseVerse content opts.includeFootnotes with k | v <;>
                            simp only [hv]
                        · simp only [if_neg h10]
                          by_cases hs : opts.strictMode
                          · simp only [if_pos hs]
                          · simp only [if_neg hs]

theorem classify_view (inc : Bool) (l : GoStr) (a : LineAction)
    (h : classify inc l = a) : ClassifyView inc l a := by
  rw [classify.eq_def] at h
  by_cases h0 : trimSpace l = []
  · rw [if_pos h0] at h; subst h; exact .blank h0
  · rw [if_neg h0] at h
    rcases hm : parseMarkerCore (trimSpace l) with e | ⟨tag, content⟩
    · simp only [hm] at h; subst h; exact .badMarker e h0 hm
    · simp only [hm] at h
      by_cases h1 : tag = str "id"
      · subst h1; rw [if_pos rfl] at h; subst h; exact .setId content h0 hm
      · rw [if_neg h1] at h
        by_cases h2 : tag = str "h"
        · subst h2; rw [if_pos rfl] at h; subst h; exact .setHeader content h0 hm
        · rw [if_neg h2] at h
          by_cases h3 : tag = str "toc1"
          · subst h3; rw [if_pos rfl] at h; subst h
            exact .addToc 1 content (str "toc1") h0 hm (Or.inl ⟨rfl, rfl⟩)
          · rw [if_neg h3] at h
            by_cases h4 : tag = str "toc2"
            · subst h4; rw [if_pos rfl] at h; subst h
              exact .addToc 2 content (str "toc2") h0 hm (Or.inr (Or.inl ⟨rfl, rfl⟩))
            · rw [if_neg h4] at h
              by_cases h5 : tag = str "toc3"
              · subst h5; rw [if_pos rfl] at h; subst h
                exact .addToc 3 content (str "toc3") h0 hm (Or.inr (Or.inr ⟨rfl, rfl⟩))
              · rw [if_neg h5] at h
                by_cases h6 : tag = str "mt1"
                · subst h6; rw [if_pos rfl] at h; subst h; exact .setMainTitle content h0 hm
                · rw [if_neg h6] at h
                  by_cases h7 : tag = str "c"
                  · subst h7; rw [if_pos rfl] at h; subst h; exact .chapterRes content h0 hm
                  · rw [if_neg h7] at h
                    by_cases h8 : tag = str "s1" ∨ tag = str "s2" ∨ tag = str "s3"
                    · rw [if_pos h8] at h; subst h; exact .secHead tag content h0 hm h8
                    · rw [if_neg h8] at h
                      by_cases h9 : tag = str "r"
                      · subst h9; rw [if_pos rfl] at h; subst h; exact .refSet content h0 hm
                      · rw [if_neg h9] at h
                        by_cases h10 : tag = str "v"
                        · subst h10; rw [if_pos rfl] at h; subst h; exact .verseRes content h0 hm
                        · rw [if_neg h10] at h; subst h
                          rw [not_or, not_or] at h8
                          refine .unknown tag content h0 hm ?_
                          simp [recognizedTag, h1, h2, h3, h4, h5, h6, h7, h8.1, h8.2.1,
                                h8.2.2, h9, h10]


/-! ## Run lemmas for the scanner loop -/

theorem parseLines_clean (opts : ParseOptions) :
    ∀ (ls : List GoStr) (st : ParseState) (n : Nat),
      (∀ l ∈ ls, lineErr opts l = none) →
      parseLines opts st n ls = .ok (ls.foldl (lineStep opts) st) := by
  intro ls
  induction ls with
  | nil => intro st n _; rfl
  | cons l ls ih =>
    intro st n h
    have hl : lineErr opts l = none := h l (by simp)
    simp only [parseLines, processLine_eq, hl, List.foldl_cons]
    exact ih _ _ (fun x hx => h x (by simp [hx]))

theorem parseLines_fatal (opts : ParseOptions) (b : GoStr) (k : ParseErrKind)
    (hb : lineErr opts b = some k) :
    ∀ (as : List GoStr), (∀ l ∈ as, lineErr opts l = none) →
      ∀ (bs : List GoStr) (st : ParseState) (n : Nat),
        parseLines opts st n (as ++ b :: bs) =
          .error { line := n + as.length + 1, kind := k } := by
  intro as
  induction as with
  | nil =>
    intro _ bs st n
    simp only [List.nil_append, parseLines, processLine_eq, hb, List.length_nil]
  | cons a as ih =>
    intro h bs st n
    have ha : lineErr opts a = none := h a (by simp)
    simp only [List.cons_append, parseLines, processLine_eq, ha]
    have heq := ih (fun x hx => h x (by simp [hx])) bs (lineStep opts st a) (n + 1)
    have h2 : n + 1 + as.length + 1 = n + (a :: as).length + 1 := by
      simp only [List.length_cons]; omega
    rw [h2] at heq
    exact heq

theorem parseLines_ok_clean (opts : ParseOptions) :
    ∀ (ls : List GoStr) (st : ParseState) (n : Nat) (st' : ParseState),
      parseLines opts st n ls = .ok st' → ∀ l ∈ ls, lineErr opts l = none := by
  intro ls
  induction ls with
  | nil => intro st n st' _ l hl; simp at hl
  | cons a as ih =>
    intro st n st' hp l hl
    rw [parseLines, processLine_eq] at hp
    cases he : lineErr opts a with
    | some k => rw [he] at hp; simp at hp
    | none =>
      rw [he] at hp
      rcases List.mem_cons.mp hl with h | h
      · subst h; exact he
      · exact ih _ _ _ hp l h

theorem Parse_clean (opts : ParseOptions) (lines : List GoStr) (sf : GoStr)
    (h : ∀ l ∈ lines, lineErr opts l = none) :
    Parse opts lines sf =
      .ok (finalFlush (lines.foldl (lineStep opts) (initState sf))) := by
  rw [Parse, parseLines_clean opts lines _ 0 h]

theorem Parse_ok_clean (opts : ParseOptions) (lines : List GoStr) (sf : GoStr)
    (doc : Document) (h : Parse opts lines sf = .ok doc) :
    (∀ l ∈ lines, lineErr opts l = none) ∧
      doc = finalFlush (lines.foldl (lineStep opts) (initState sf)) := by
  rw [Parse] at h
  cases hp : parseLines opts (initState sf) 0 lines with
  | error e => rw [hp] at h; simp at h
  | ok st =>
    rw [hp] at h
    have hc := parseLines_ok_clean opts lines _ _ _ hp
    have := parseLines_clean opts lines (initState sf) 0 hc
    rw [hp] at this
    simp only [Except.ok.injEq] at this h
    subst this
    exact ⟨hc, h.symm⟩

theorem Parse_fatal (opts : ParseOptions) (as : List GoStr) (b : GoStr)
    (bs : List GoStr) (sf : GoStr) (k : ParseErrKind)
    (ha : ∀ l ∈ as, lineErr opts l = none) (hb : lineErr opts b = some k) :
    Parse opts (as ++ b :: bs) sf = .error { line := as.length + 1, kind := k } := by
  rw [Parse, parseLines_fatal opts b k hb as ha bs _ 0]
  simp

theorem Parse_error_of_bad (opts : ParseOptions) (lines : List GoStr) (sf : GoStr)
    (l : GoStr) (hl : l ∈ lines) (hbad : lineErr opts l ≠ none) :
    ∃ e, Parse opts lines sf = .error e := by
  cases hP : Parse opts lines sf with
  | error e => exact ⟨e, rfl⟩
  | ok doc => exact absurd ((Parse_ok_clean opts lines sf doc hP).1 l hl) hbad

/-! ## Chapter bookkeeping (claim C1) -/

theorem chapNums_startChapter (st : ParseState) (num : Int) :
    chapNums (startChapter st num) = chapNums st ++ [num] := by
  rcases st with ⟨d, cc, cs⟩
  rcases cc with _ | ch <;> rcases cs with _ | sec <;>
    simp [startChapter, chapNums]

theorem chapNums_startSection (st : ParseState) (lvl : Int) (t : GoStr) :
    chapNums (startSection st lvl t) = chapNums st := by
  rcases st with ⟨d, cc, cs⟩
  rcases cc with _ | ch <;> rcases cs with _ | sec <;>
    simp [startSection, chapNums]

theorem chapNums_setReference (opts : ParseOptions) (st : ParseState) (c : GoStr) :
    chapNums (setReference opts st c) = chapNums st := by
  rcases st with ⟨d, cc, cs⟩
  rcases hr : opts.includeReferences <;> rcases cs with _ | sec <;>
    simp [setReference, chapNums, hr]

theorem chapNums_addVerse (st : ParseState) (v : Verse) :
    chapNums (addVerse st v) = chapNums st := by
  rcases st with ⟨d, cc, cs⟩
  rcases cs with _ | sec <;> simp [addVerse, chapNums]

theorem lineStep_chapNums (opts : ParseOptions) (st : ParseState) (l : GoStr) :
    chapNums (lineStep opts st l) = chapNums st ++ cNumsOfLine l := by
  cases hc : classify opts.includeFootnotes l with
  | blank =>
    cases classify_view _ _ _ hc with
    | blank h0 => simp [lineStep, hc, cNumsOfLine, lineTag, lineTok, h0]
  | badMarker e =>
    cases classify_view _ _ _ hc with
    | badMarker e h0 hm => simp [lineStep, hc, cNumsOfLine, lineTag, lineTok, h0, hm]
  | setId c =>
    cases classify_view _ _ _ hc with
    | setId c h0 hm =>
      simp [lineStep, hc, cNumsOfLine, lineTag, lineTok, h0, hm, chapNums,
            (by decide : ¬(str "id" = str "c"))]
  | setHeader c =>
    cases classify_view _ _ _ hc with
    | setHeader c h0 hm =>
      simp [lineStep, hc, cNumsOfLine, lineTag, lineTok, h0, hm, chapNums,
            (by decide : ¬(str "h" = str "c"))]
  | addToc lvl c =>
    cases classify_view _ _ _ hc with
    | addToc lvl c tag h0 hm htag =>
      rcases htag with ⟨ht, _⟩ | ⟨ht, _⟩ | ⟨ht, _⟩ <;> subst ht <;>
        simp [lineStep, hc, cNumsOfLine, lineTag, lineTok, h0, hm, chapNums,
              (by decide : ¬(str "toc1" = str "c")), (by decide : ¬(str "toc2" = str "c")),
              (by decide : ¬(str "toc3" = str "c"))]
  | setMainTitle c =>
    cases classify_view _ _ _ hc with
    | setMainTitle c h0 hm =>
      simp [lineStep, hc, cNumsOfLine, lineTag, lineTok, h0, hm, chapNums,
            (by decide : ¬(str "mt1" = str "c"))]
  | chapterRes res =>
    cases classify_view _ _ _ hc with
    | chapterRes content h0 hm =>
      rcases hres : parseChapter content with k | num
      · rw [hres] at hc
        simp [lineStep, hc, cNumsOfLine, lineTag, lineTok, h0, hm, hres]
      · rw [hres] at hc
        simp [lineStep, hc, cNumsOfLine, lineTag, lineTok, h0, hm, hres, chapNums_startChapter]
  | secHead lvl t =>
    cases classify_view _ _ _ hc with
    | secHead tag t h0 hm htag =>
      have hnc : ¬(tag = str "c") := by
        rcases htag with ht | ht | ht <;> subst ht <;> decide
      simp [lineStep, hc, cNumsOfLine, lineTag, lineTok, h0, hm, hnc, chapNums_startSection]
  | refSet c =>
    cases classify_view _ _ _ hc with
    | refSet c h0 hm =>
      simp [lineStep, hc, cNumsOfLine, lineTag, lineTok, h0, hm, chapNums_setReference,
            (by decide : ¬(str "r" = str "c"))]
  | verseRes res =>
    cases classify_view _ _ _ hc with
    | verseRes content h0 hm =>
      rcases hres : parseVerse content opts.includeFootnotes with k | v
      · rw [hres] at hc
        simp [lineStep, hc, cNumsOfLine, lineTag, lineTok, h0, hm,
              (by decide : ¬(str "v" = str "c"))]
      · rw [hres] at hc
        simp [lineStep, hc, cNumsOfLine, lineTag, lineTok, h0, hm, chapNums_addVerse,
              (by decide : ¬(str "v" = str "c"))]
  | unknown tag =>
    cases classify_view _ _ _ hc with
    | unknown tag c h0 hm hrec =>
      have hnc : ¬(tag = str "c") := by
        intro ht; subst ht; simp [recognizedTag] at hrec
      simp [lineStep, hc, cNumsOfLine, lineTag, lineTok, h0, hm, hnc]

theorem foldl_chapNums (opts : ParseOptions) :
    ∀ (ls : List GoStr) (st : ParseState),
      chapNums (ls.foldl (lineStep opts) st) = chapNums st ++ cMarkerNums ls := by
  intro ls
  induction ls with
  | nil => intro st; simp [cMarkerNums]
  | cons l ls ih =>
    intro st
    simp only [List.foldl_cons, ih, lineStep_chapNums, cMarkerNums, List.foldr_cons,
               List.append_assoc]

theorem finalFlush_chapNums (st : ParseState) :
    (finalFlush st).chapters.map Chapter.number = chapNums st := by
  rcases st with ⟨d, cc, cs⟩
  rcases cc with _ | ch <;> rcases cs with _ | sec <;>
    simp [finalFlush, chapNums]

theorem cNumsOfLine_length (opts : ParseOptions) (l : GoStr)
    (h : lineErr opts l = none) :
    (cNumsOfLine l).length = if isCLine l then 1 else 0 := by
  cases hc : classify opts.includeFootnotes l with
  | blank =>
    cases classify_view _ _ _ hc with
    | blank h0 => simp [cNumsOfLine, isCLine, lineTag, lineTok, h0]
  | badMarker e =>
    cases classify_view _ _ _ hc with
    | badMarker e h0 hm => simp [cNumsOfLine, isCLine, lineTag, lineTok, h0, hm]
  | setId c =>
    cases classify_view _ _ _ hc with
    | setId c h0 hm =>
      simp [cNumsOfLine, isCLine, lineTag, lineTok, h0, hm,
            (by decide : ¬(str "id" = str "c"))]
  | setHeader c =>
    cases classify_view _ _ _ hc with
    | setHeader c h0 hm =>
      simp [cNumsOfLine, isCLine, lineTag, lineTok, h0, hm,
            (by decide : ¬(str "h" = str "c"))]
  | addToc lvl c =>
    cases classify_view _ _ _ hc with
    | addToc lvl c tag h0 hm htag =>
      rcases htag with ⟨ht, _⟩ | ⟨ht, _⟩ | ⟨ht, _⟩ <;> subst ht <;>
        simp [cNumsOfLine, isCLine, lineTag, lineTok, h0, hm,
              (by decide : ¬(str "toc1" = str "c")), (by decide : ¬(str "toc2" = str "c")),
              (by decide : ¬(str "toc3" = str "c"))]
  | setMainTitle c =>
    cases classify_view _ _ _ hc with
    | setMainTitle c h0 hm =>
      simp [cNumsOfLine, isCLine, lineTag, lineTok, h0, hm,
            (by decide : ¬(str "mt1" = str "c"))]
  | chapterRes res =>
    cases classify_view _ _ _ hc with
    | chapterRes content h0 hm =>
      rcases hres : parseChapter content with k | num
      · rw [hres] at hc
        rw [lineErr, hc] at h
        simp at h
      · simp [cNumsOfLine, isCLine, lineTag, lineTok, h0, hm, hres]
  | secHead lvl t =>
    cases classify_view _ _ _ hc with
    | secHead tag t h0 hm htag =>
      have hnc : ¬(tag = str "c") := by
        rcases htag with ht | ht | ht <;> subst ht <;> decide
      simp [cNumsOfLine, isCLine, lineTag, lineTok, h0, hm, hnc]
  | refSet c =>
    cases classify_view _ _ _ hc with
    | refSet c h0 hm =>
      simp [cNumsOfLine, isCLine, lineTag, lineTok, h0, hm,
            (by decide : ¬(str "r" = str "c"))]
  | verseRes res =>
    cases classify_view _ _ _ hc with
    | verseRes content h0 hm =>
      simp [cNumsOfLine, isCLine, lineTag, lineTok, h0, hm,
            (by decide : ¬(str "v" = str "c"))]
  | unknown tag =>
    cases classify_view _ _ _ hc with
    | unknown tag c h0 hm hrec =>
      have hnc : ¬(tag = str "c") := by
        intro ht; subst ht; simp [recognizedTag] at hrec
      simp [cNumsOfLine, isCLine, lineTag, lineTok, h0, hm, hnc]

theorem cMarkerNums_length (opts : ParseOptions) :
    ∀ (lines : List GoStr), (∀ l ∈ lines, lineErr opts l = none) →
      (cMarkerNums lines).length = lines.countP isCLine := by
  intro lines
  induction lines with
  | nil => intro _; simp [cMarkerNums]
  | cons l ls ih =>
    intro h
    have hl := cNumsOfLine_length opts l (h l (by simp))
    have hrest := ih (fun x hx => h x (by simp [hx]))
    simp only [cMarkerNums, List.foldr_cons, List.length_append, List.countP_cons]
    rw [show (List.foldr (fun l acc => cNumsOfLine l ++ acc) [] ls) = cMarkerNums ls from rfl,
        hrest, hl]
    by_cases hC : isCLine l
    · simp [hC]
      omega
    · simp [hC]

/-- C1: for every input that parses successfully, the chapters of the
returned document are exactly the `\\c` markers of the input, in source
encounter order (their count equals the number of `\\c` marker lines, and
their numbers are the marker numbers in encounter order regardless of
numeric value). -/
theorem c1_chapters_encounter_order (opts : ParseOptions) (lines : List GoStr)
    (sf : GoStr) (doc : Document) (h : Parse opts lines sf = .ok doc) :
    doc.chapters.map Chapter.number = cMarkerNums lines ∧
    doc.chapters.length = lines.countP isCLine := by
  obtain ⟨hclean, hdoc⟩ := Parse_ok_clean opts lines sf doc h
  subst hdoc
  have hm1 : (finalFlush (lines.foldl (lineStep opts) (initState sf))).chapters.map
      Chapter.number = cMarkerNums lines := by
    rw [finalFlush_chapNums, foldl_chapNums]
    simp [chapNums, initState]
  refine ⟨hm1, ?_⟩
  have h2 := congrArg List.length hm1
  rw [List.length_map] at h2
  rw [h2, cMarkerNums_length opts lines hclean]

/-- Witness for C1: `\\c 2` before `\\c 1` yields chapters [2, 1] in
encounter order. -/
theorem c1_chapters_encounter_order_witness :
    cMarkerNums [str "\\c 2", str "\\c 1"] = [2, 1] ∧
    ∃ doc, Parse defaultParseOptions [str "\\c 2", str "\\c 1"] (str "t") = .ok doc ∧
      doc.chapters.map Chapter.number = [2, 1] ∧ doc.chapters.length = 2 := by
  have hp : Parse defaultParseOptions [str "\\c 2", str "\\c 1"] (str "t") =
      .ok { id := [], header := [], tableOfContents := none, mainTitle := [],
            chapters := [{ number := 2, sections := [] }, { number := 1, sections := [] }],
            sourceFile := str "t" } := by decide
  have hc := c1_chapters_encounter_order defaultParseOptions _ _ _ hp
  exact ⟨by decide, _, hp, by rw [hc.1]; decide, by rw [hc.2]; decide⟩

/-! ## Claims settled by direct evaluation -/

/-- C2: parsing `\\id X`, `\\c 1`, `\\v 1 Hello.` with default options
yields exactly one chapter (number 1) containing exactly one synthesized
section (level 1, empty title, no reference) containing exactly one verse
(number 1, text "Hello.", empty footnotes): the verse marker with no
preceding section heading produces an implicit section and the verse is
retained. -/
theorem c2_implicit_section :
    Parse defaultParseOptions [str "\\id X", str "\\c 1", str "\\v 1 Hello."]
        (str "test.sfm") =
      .ok { id := str "X", header := [], tableOfContents := none, mainTitle := [],
            chapters := [{ number := 1,
                           sections := [{ level := 1, title := [], reference := [],
                                          verses := [{ number := 1, text := str "Hello.",
                                                       footnotes := some [] }] }] }],
            sourceFile := str "test.sfm" } := by decide

/-- C3: the verse marker content `1 A \\f + \\fr 1:1 \\ft Note text\\f* B`
with footnote inclusion enabled yields verse number 1, text exactly "A B"
(footnote block removed, double space collapsed, trimmed) and exactly one
footnote {caller "+", reference "1:1", text "Note text"}, each segment
trimmed. -/
theorem c3_footnote_extraction :
    parseVerse (str "1 A \\f + \\fr 1:1 \\ft Note text\\f* B") true =
      .ok { number := 1, text := str "A B",
            footnotes := some [{ caller := str "+", reference := str "1:1",
                                 text := str "Note text" }] } := by decide

/-! ## The marker tokenizer contract (claim C6) -/

theorem takeWhile_append_all (p : Char → Bool) :
    ∀ (xs ys : List Char), (∀ c ∈ xs, p c = true) →
      (xs ++ ys).takeWhile p = xs ++ ys.takeWhile p := by
  intro xs ys
  induction xs with
  | nil => intro _; simp
  | cons a l ih =>
    intro h
    have ha : p a = true := h a (by simp)
    simp only [List.cons_append, List.takeWhile_cons, ha, if_true]
    rw [ih (fun c hc => h c (by simp [hc]))]

theorem dropWhile_append_all (p : Char → Bool) :
    ∀ (xs ys : List Char), (∀ c ∈ xs, p c = true) →
      (xs ++ ys).dropWhile p = ys.dropWhile p := by
  intro xs ys
  induction xs with
  | nil => intro _; simp
  | cons a l ih =>
    intro h
    have ha : p a = true := h a (by simp)
    simp only [List.cons_append, List.dropWhile_cons, ha, if_true]
    exact ih (fun c hc => h c (by simp [hc]))

theorem takeWhile_all (p : Char → Bool) :
    ∀ (xs : List Char), (∀ c ∈ xs, p c = true) → xs.takeWhile p = xs := by
  intro xs
  induction xs with
  | nil => intro _; simp
  | cons a l ih =>
    intro h
    simp only [List.takeWhile_cons, h a (by simp), if_true]
    rw [ih (fun c hc => h c (by simp [hc]))]

theorem dropWhile_dropWhile_subset (p q : Char → Bool)
    (hpq : ∀ c, q c = true → p c = true) :
    ∀ (xs : List Char), (xs.dropWhile q).dropWhile p = xs.dropWhile p := by
  intro xs
  induction xs with
  | nil => simp
  | cons a l ih =>
    by_cases hq : q a = true
    · simp only [List.dropWhile_cons, hq, if_true, hpq a hq, ih]
    · simp only [List.dropWhile_cons, if_neg hq]

theorem reSpace_subset_goIsSpace : ∀ c, reSpace c = true → goIsSpace c = true := by
  intro c hc
  simp only [reSpace, Bool.or_eq_true, decide_eq_true_eq] at hc
  rcases hc with (((h | h) | h) | h) | h <;> subst h <;> decide

theorem trimSpace_dropWhile_reSpace (x : GoStr) :
    trimSpace (x.dropWhile reSpace) = trimSpace x := by
  unfold trimSpace
  rw [dropWhile_dropWhile_subset goIsSpace reSpace reSpace_subset_goIsSpace]

theorem mem_of_mem_dropWhile (p : Char → Bool) :
    ∀ (xs : List Char) (c : Char), c ∈ xs.dropWhile p → c ∈ xs := by
  intro xs
  induction xs with
  | nil => intro c hc; simp at hc
  | cons a l ih =>
    intro c hc
    by_cases ha : p a = true
    · rw [List.dropWhile_cons, if_pos ha] at hc
      exact List.mem_cons_of_mem a (ih c hc)
    · rw [List.dropWhile_cons, if_neg ha] at hc
      exact hc

theorem parseMarkerCore_cons (rest : GoStr) :
    parseMarkerCore ('\\' :: rest) =
      if rest.takeWhile isTagChar = [] then .error .invalidMarkerFormat
      else
        .ok (rest.takeWhile isTagChar,
          trimSpace (((starStrip (rest.dropWhile isTagChar)).dropWhile reSpace).takeWhile
            (fun c => c ≠ '\n'))) := by
  by_cases htag : rest.takeWhile isTagChar = [] <;>
    simp [parseMarkerCore, markerMatch, htag]

theorem parseMarkerCore_not_marker (l : GoStr) (h : ¬ l.take 1 = ['\\']) :
    parseMarkerCore l = .error .notAMarker := by
  simp [parseMarkerCore, h]

theorem parseMarker_error_iff (l : GoStr) (n : Nat) (e : ParseErrKind) :
    parseMarker l n = .error e ↔ parseMarkerCore l = .error e := by
  rw [parseMarker.eq_def]
  cases hp : parseMarkerCore l <;> simp

theorem parseMarker_ok_of (l : GoStr) (n : Nat) (tag content : GoStr)
    (h : parseMarkerCore l = .ok (tag, content)) :
    parseMarker l n = .ok { tag := tag, content := content, line := n } := by
  rw [parseMarker.eq_def, h]

/-- C6: the marker tokenizer fails with NotAMarker exactly when the line
does not start with the backslash introducer; it fails with
InvalidMarkerFormat exactly when the line starts with the introducer but no
tag character (`[a-z0-9]`) follows, i.e. the line does not match
markerRegex; and on every valid marker line `\\tag content` it returns the
record {tag, trimmed content, line number}, so re-joining tag and content
reproduces the tag and the trimmed content exactly. -/
theorem c6_marker_tokenizer (n : Nat) :
    (∀ l : GoStr, trimSpace l = l → ¬ l = [] →
      ((parseMarker l n = .error .notAMarker ↔ ¬ l.take 1 = ['\\']) ∧
       (parseMarker l n = .error .invalidMarkerFormat ↔
         l.take 1 = ['\\'] ∧ (l.drop 1).takeWhile isTagChar = []))) ∧
    (∀ tag content : GoStr, ¬ tag = [] → (∀ c ∈ tag, isTagChar c = true) →
      (∀ c ∈ content, ¬ c = '\n') →
      parseMarker ('\\' :: (tag ++ ' ' :: content)) n =
        .ok { tag := tag, content := trimSpace content, line := n }) := by
  constructor
  · intro l _ _
    by_cases hstart : l.take 1 = ['\\']
    · obtain ⟨rest, hrest⟩ : ∃ rest, l = '\\' :: rest := by
        cases l with
        | nil => simp at hstart
        | cons c cs =>
          simp [List.take] at hstart
          exact ⟨cs, by rw [hstart]⟩
      subst hrest
      constructor
      · rw [parseMarker_error_iff, parseMarkerCore_cons]
        by_cases htag : rest.takeWhile isTagChar = [] <;> simp [htag, hstart]
      · rw [parseMarker_error_iff, parseMarkerCore_cons]
        by_cases htag : rest.takeWhile isTagChar = [] <;> simp [htag, hstart]
    · constructor
      · rw [parseMarker_error_iff, parseMarkerCore_not_marker l hstart]
        simp [hstart]
      · rw [parseMarker_error_iff, parseMarkerCore_not_marker l hstart]
        simp [hstart]
  · intro tag content htag htagc hnl
    have h1 : (tag ++ ' ' :: content).takeWhile isTagChar = tag := by
      rw [takeWhile_append_all isTagChar tag (' ' :: content) htagc]
      simp [List.takeWhile_cons, (by decide : isTagChar ' ' = false)]
    have h2 : (tag ++ ' ' :: content).dropWhile isTagChar = ' ' :: content := by
      rw [dropWhile_append_all isTagChar tag (' ' :: content) htagc]
      simp [List.dropWhile_cons, (by decide : isTagChar ' ' = false)]
    apply parseMarker_ok_of
    rw [parseMarkerCore_cons, if_neg (by rw [h1]; exact htag), h1, h2]
    have h3 : starStrip (' ' :: content) = ' ' :: content := rfl
    rw [h3]
    have h4 : (' ' :: content).dropWhile reSpace = content.dropWhile reSpace := by
      simp [List.dropWhile_cons, (by decide : reSpace ' ' = true)]
    rw [h4]
    have h5 : (content.dropWhile reSpace).takeWhile (fun c => c ≠ '\n') =
        content.dropWhile reSpace := by
      apply takeWhile_all
      intro c hc
      simp only [ne_eq, decide_eq_true_eq]
      exact hnl c (mem_of_mem_dropWhile reSpace content c hc)
    rw [h5, trimSpace_dropWhile_reSpace]

/-- Witness for C6: a valid marker line, a non-marker line and a malformed
marker line, each tokenized as the contract states. -/
theorem c6_marker_tokenizer_witness :
    parseMarker (str "\\toc1 Genesis") 3 =
      .ok { tag := str "toc1", content := str "Genesis", line := 3 } ∧
    parseMarker (str "Not a marker") 1 = .error .notAMarker ∧
    parseMarker (str "\\") 2 = .error .invalidMarkerFormat := by
  refine ⟨?_, ?_, ?_⟩
  · have h := (c6_marker_tokenizer 3).2 (str "toc1") (str "Genesis")
      (by decide) (by decide) (by decide)
    have he : ('\\' :: (str "toc1" ++ ' ' :: str "Genesis")) = str "\\toc1 Genesis" := by
      decide
    rw [he] at h
    rw [h]
    decide
  · exact ((c6_marker_tokenizer 1).1 (str "Not a marker") (by decide) (by decide)).1.mpr
      (by decide)
  · exact ((c6_marker_tokenizer 2).1 (str "\\") (by decide) (by decide)).2.mpr
      (by decide)

/-! ## Verse parsing with footnotes disabled (claim C7) -/

/-- C7: with footnote inclusion disabled, the verse text is the raw body
(the remainder after splitting off the numeric token) completely unchanged,
and the footnote sequence is empty. -/
theorem c7_footnotes_disabled (content : GoStr) (v : Verse)
    (h : parseVerse content false = .ok v) :
    v.text = rawBody content ∧ v.footnotes = some [] := by
  rw [parseVerse.eq_def] at h
  cases ha : goAtoi (splitN2Space content).1 with
  | none => rw [ha] at h; simp at h
  | some n =>
    rw [ha] at h
    simp only [Bool.false_eq_true, if_false, Except.ok.injEq] at h
    rw [← h]
    exact ⟨rfl, rfl⟩

/-- Witness for C7: a verse body containing footnote markup is preserved
verbatim when footnote inclusion is disabled. -/
theorem c7_footnotes_disabled_witness :
    ∃ v, parseVerse (str "1 A \\f + \\fr 1:1 \\ft N\\f* B") false = .ok v ∧
      v.text = rawBody (str "1 A \\f + \\fr 1:1 \\ft N\\f* B") ∧
      v.footnotes = some [] := by
  have hp : parseVerse (str "1 A \\f + \\fr 1:1 \\ft N\\f* B") false =
      .ok { number := 1, text := str "A \\f + \\fr 1:1 \\ft N\\f* B",
            footnotes := some [] } := by decide
  exact ⟨_, hp, (c7_footnotes_disabled _ _ hp).1, (c7_footnotes_disabled _ _ hp).2⟩

/-! ## Malformed footnote markup (claim C9) -/

theorem findFootnotesAux_nomatch :
    ∀ (fuel : Nat) (s : GoStr), noMatchAux s = true → findFootnotesAux fuel s = [] := by
  intro fuel
  induction fuel with
  | zero => intro s _; rfl
  | succ fuel ih =>
    intro s hs
    cases s with
    | nil => rfl
    | cons c rest =>
      simp only [noMatchAux, Bool.and_eq_true, Option.isNone_iff_eq_none] at hs
      rw [findFootnotesAux, hs.1]
      exact ih rest hs.2

theorem removeBlocksAux_nomatch :
    ∀ (fuel : Nat) (s : GoStr), noMatchAux s = true → removeBlocksAux fuel s = s := by
  intro fuel
  induction fuel with
  | zero => intro s _; rfl
  | succ fuel ih =>
    intro s hs
    cases s with
    | nil => rfl
    | cons c rest =>
      simp only [noMatchAux, Bool.and_eq_true, Option.isNone_iff_eq_none] at hs
      rw [removeBlocksAux, hs.1, ih rest hs.2]

theorem splitN2Space_sep (numTok body : GoStr) (h : ∀ c ∈ numTok, ¬ c = ' ') :
    splitN2Space (numTok ++ ' ' :: body) = (numTok, some body) := by
  have hp : ∀ c ∈ numTok, (fun c => decide (c ≠ ' ')) c = true := by
    intro c hc
    simp [h c hc]
  rw [splitN2Space.eq_def]
  rw [dropWhile_append_all _ numTok (' ' :: body) hp]
  rw [takeWhile_append_all _ numTok (' ' :: body) hp]
  simp [List.dropWhile_cons, List.takeWhile_cons]

/-- C9: in a verse body in which the footnote pattern matches nowhere
(e.g. a `\f` opener without the complete `\fr`/`\ft`/`\f*` block), no
footnote is extracted and the cleaned text is the body untouched modulo
the general double-space collapsing and trimming; such a body is not an
error: a verse marker with a valid number and that body parses
successfully in both footnote modes. -/
theorem c9_malformed_footnotes (body : GoStr) (h : noMatchAux body = true) :
    extractFootnotes body = [] ∧
    removeFootnoteMarkers body = trimSpace (collapseSpaces body) ∧
    (∀ (numTok : GoStr) (n : Int) (inc : Bool), goAtoi numTok = some n →
      (∀ c ∈ numTok, ¬ c = ' ') →
      parseVerse (numTok ++ ' ' :: body) inc =
        .ok { number := n,
              text := if inc then trimSpace (collapseSpaces body) else body,
              footnotes := some [] }) := by
  have he : extractFootnotes body = [] := findFootnotesAux_nomatch body.length body h
  have hr : removeFootnoteMarkers body = trimSpace (collapseSpaces body) := by
    rw [removeFootnoteMarkers, removeBlocksAux_nomatch body.length body h]
  refine ⟨he, hr, ?_⟩
  intro numTok n inc ha hsp
  have hsplit := splitN2Space_sep numTok body hsp
  have hbody : rawBody (numTok ++ ' ' :: body) = body := by
    rw [rawBody.eq_def, hsplit]
  rw [parseVerse.eq_def, hsplit]
  simp only [ha, hbody]
  cases inc with
  | false => simp
  | true => simp [he, hr]

/-- Witness for C9: `A \f + \fr 1:1 B` has an opener without the complete
block; no footnote is extracted, the text is untouched, and the verse
parses without error. -/
theorem c9_malformed_footnotes_witness :
    noMatchAux (str "A \\f + \\fr 1:1 B") = true ∧
    extractFootnotes (str "A \\f + \\fr 1:1 B") = [] ∧
    removeFootnoteMarkers (str "A \\f + \\fr 1:1 B") = str "A \\f + \\fr 1:1 B" ∧
    parseVerse (str "1 A \\f + \\fr 1:1 B") true =
      .ok { number := 1, text := str "A \\f + \\fr 1:1 B", footnotes := some [] } := by
  have h := c9_malformed_footnotes (str "A \\f + \\fr 1:1 B") (by decide)
  refine ⟨by decide, h.1, ?_, ?_⟩
  · rw [h.2.1]; decide
  · have h3 := h.2.2 (str "1") 1 true (by decide) (by decide)
    have he : (str "1" ++ ' ' :: str "A \\f + \\fr 1:1 B") = str "1 A \\f + \\fr 1:1 B" := by
      decide
    rw [he] at h3
    rw [h3]
    decide

/-! ## Numeric failures are fatal in both modes (claim C5) -/

theorem isDigitChar_not_space (c : Char) (h : isDigitChar c = true) :
    goIsSpace c = false := by
  simp only [isDigitChar, Bool.and_eq_true, decide_eq_true_eq] at h
  obtain ⟨h1, h2⟩ := h
  have k : ∀ (d : Char), ¬('0' ≤ d ∧ d ≤ '9') → decide (c = d) = false := by
    intro d hd
    rw [decide_eq_false_iff_not]
    intro he
    subst he
    exact hd ⟨h1, h2⟩
  have krange : (decide ('\u2000' ≤ c) && decide (c ≤ '\u200a')) = false := by
    rw [Bool.and_eq_false_iff]
    left
    rw [decide_eq_false_iff_not]
    intro hle
    exact absurd (le_trans hle h2) (by decide)
  rw [goIsSpace]
  simp only [k ' ' (by decide), k '\t' (by decide), k '\n' (by decide), k '\x0b' (by decide),
    k '\x0c' (by decide), k '\r' (by decide), k '\u0085' (by decide), k '\u00a0' (by decide),
    k '\u1680' (by decide), k '\u2028' (by decide), k '\u2029' (by decide),
    k '\u202f' (by decide), k '\u205f' (by decide), k '\u3000' (by decide), krange,
    Bool.or_false, Bool.false_or]

theorem atoiSign_snd (s : GoStr) :
    ((atoiSign s).2 = s ∧ (atoiSign s).1 = 1) ∨
      ∃ a, (a = '+' ∨ a = '-') ∧ s = a :: (atoiSign s).2 := by
  rw [atoiSign.eq_def]
  split
  · exact Or.inr ⟨'+', Or.inl rfl, rfl⟩
  · exact Or.inr ⟨'-', Or.inr rfl, rfl⟩
  · exact Or.inl ⟨rfl, rfl⟩

theorem goAtoi_some_facts (s : GoStr) (v : Int) (h : goAtoi s = some v) :
    ¬(atoiSign s).2 = [] ∧ (atoiSign s).2.all isDigitChar = true := by
  rw [goAtoi.eq_def] at h
  by_cases h1 : (atoiSign s).2 = []
  · rw [if_pos h1] at h; simp at h
  · rw [if_neg h1] at h
    by_cases h2 : (atoiSign s).2.all isDigitChar = true
    · exact ⟨h1, h2⟩
    · rw [if_neg h2] at h; simp at h

theorem goAtoi_some_no_space (s : GoStr) (v : Int) (h : goAtoi s = some v) :
    ∀ c ∈ s, goIsSpace c = false := by
  obtain ⟨-, hall⟩ := goAtoi_some_facts s v h
  intro c hc
  rcases atoiSign_snd s with ⟨heq, -⟩ | ⟨a, hsig, heq⟩
  · rw [← heq] at hc
    exact isDigitChar_not_space c (List.all_eq_true.mp hall c hc)
  · rw [heq] at hc
    rcases List.mem_cons.mp hc with rfl | hc
    · rcases hsig with rfl | rfl <;> decide
    · exact isDigitChar_not_space c (List.all_eq_true.mp hall c hc)

theorem takeWhile_congr_strong (p q : Char → Bool) (hpq : ∀ c, p c = true → q c = true) :
    ∀ l : List Char, (∀ c ∈ l.takeWhile q, p c = true) → l.takeWhile p = l.takeWhile q := by
  intro l
  induction l with
  | nil => intro _; rfl
  | cons a t ih =>
    intro h
    by_cases hq : q a = true
    · have hp : p a = true := by
        apply h
        rw [List.takeWhile_cons, if_pos hq]
        simp
      have ht : ∀ c ∈ t.takeWhile q, p c = true := by
        intro c hc
        apply h
        rw [List.takeWhile_cons, if_pos hq]
        exact List.mem_cons_of_mem a hc
      rw [List.takeWhile_cons, List.takeWhile_cons, if_pos hq, if_pos hp, ih ht]
    · have hp : ¬ p a = true := fun hpa => hq (hpq a hpa)
      rw [List.takeWhile_cons, List.takeWhile_cons, if_neg hq, if_neg hp]

theorem splitN2Space_fst (s : GoStr) :
    (splitN2Space s).1 = s.takeWhile (fun c => c ≠ ' ') := by
  rw [splitN2Space.eq_def]
  cases hd : s.dropWhile (fun c => c ≠ ' ') with
  | nil =>
    have hall := List.dropWhile_eq_nil_iff.mp hd
    simp only []
    exact (takeWhile_all _ s (fun c hc => hall c hc)).symm
  | cons a t => simp only []

theorem wsTok_none_spaceTok_none (content : GoStr)
    (h : goAtoi (content.takeWhile (fun c => !goIsSpace c)) = none) :
    goAtoi ((splitN2Space content).1) = none := by
  rw [splitN2Space_fst]
  cases hv : goAtoi (content.takeWhile (fun c => c ≠ ' ')) with
  | none => rfl
  | some v =>
    exfalso
    have hall := goAtoi_some_no_space _ v hv
    have heq : content.takeWhile (fun c => !goIsSpace c) =
        content.takeWhile (fun c => c ≠ ' ') := by
      apply takeWhile_congr_strong
      · intro c hc
        simp only [Bool.not_eq_true'] at hc
        simp only [ne_eq, decide_eq_true_eq]
        intro he
        subst he
        exact absurd hc (by decide)
      · intro c hc
        simp [hall c hc]
    rw [heq, hv] at h
    simp at h

theorem lineTag_some (l tag content : GoStr) (h : lineTag l = some (tag, content)) :
    ¬trimSpace l = [] ∧ parseMarkerCore (trimSpace l) = .ok (tag, content) := by
  rw [lineTag.eq_def, lineTok.eq_def] at h
  by_cases h0 : trimSpace l = []
  · rw [if_pos h0] at h
    simp at h
  · rw [if_neg h0] at h
    cases hm : parseMarkerCore (trimSpace l) with
    | error e => rw [hm] at h; simp at h
    | ok p =>
      rw [hm] at h
      simp only [Option.some.injEq] at h
      subst h
      exact ⟨h0, rfl⟩

theorem classify_tag_c (inc : Bool) (l content : GoStr) (h0 : ¬trimSpace l = [])
    (hm : parseMarkerCore (trimSpace l) = .ok (str "c", content)) :
    classify inc l = .chapterRes (parseChapter content) := by
  rw [classify.eq_def, if_neg h0, hm]
  rfl

theorem classify_tag_v (inc : Bool) (l content : GoStr) (h0 : ¬trimSpace l = [])
    (hm : parseMarkerCore (trimSpace l) = .ok (str "v", content)) :
    classify inc l = .verseRes (parseVerse content inc) := by
  rw [classify.eq_def, if_neg h0, hm]
  rfl

theorem lineErr_badC (opts : ParseOptions) (l : GoStr) (h : badCLine l = true) :
    lineErr opts l = some .invalidChapterNumber := by
  rw [badCLine.eq_def] at h
  cases ht : lineTag l with
  | none => rw [ht] at h; simp at h
  | some p =>
    obtain ⟨tag, content⟩ := p
    rw [ht] at h
    simp only [Bool.and_eq_true, decide_eq_true_eq, Option.isNone_iff_eq_none] at h
    obtain ⟨rfl, hnone⟩ := h
    obtain ⟨h0, hm⟩ := lineTag_some l _ content ht
    have hpc : parseChapter content = .error .invalidChapterNumber := by
      rw [parseChapter.eq_def, hnone]
    rw [lineErr.eq_def, classify_tag_c opts.includeFootnotes l content h0 hm, hpc]

theorem lineErr_badV (opts : ParseOptions) (l : GoStr) (h : badVLine l = true) :
    lineErr opts l = some .invalidVerseNumber := by
  rw [badVLine.eq_def] at h
  cases ht : lineTag l with
  | none => rw [ht] at h; simp at h
  | some p =>
    obtain ⟨tag, content⟩ := p
    rw [ht] at h
    simp only [Bool.and_eq_true, decide_eq_true_eq, Option.isNone_iff_eq_none] at h
    obtain ⟨rfl, hnone⟩ := h
    obtain ⟨h0, hm⟩ := lineTag_some l _ content ht
    have hpv : parseVerse content opts.includeFootnotes = .error .invalidVerseNumber := by
      rw [parseVerse.eq_def, wsTok_none_spaceTok_none content hnone]
    rw [lineErr.eq_def, classify_tag_v opts.includeFootnotes l content h0 hm, hpv]

theorem badV_not_badC (l : GoStr) (h : badVLine l = true) : badCLine l = false := by
  rw [badVLine.eq_def] at h
  rw [badCLine.eq_def]
  cases ht : lineTag l with
  | none => rw [ht] at h
  | some p =>
    obtain ⟨tag, content⟩ := p
    rw [ht] at h
    simp only [Bool.and_eq_true, decide_eq_true_eq] at h
    obtain ⟨rfl, -⟩ := h
    simp [(by decide : ¬(str "v" = str "c"))]

/-- C5: a `\c` marker whose content does not parse as an integer, or a
`\v` marker whose first whitespace-delimited token does not parse as an
integer, makes `Parse` return an error and no document, in every mode;
when no earlier line is fatal the error carries exactly that line's
1-based number and the corresponding numeric-failure kind. -/
theorem c5_numeric_failures_fatal (opts : ParseOptions) (pre post : List GoStr)
    (l sf : GoStr) (h : badCLine l = true ∨ badVLine l = true) :
    (∃ e, Parse opts (pre ++ l :: post) sf = .error e) ∧
    ((∀ x ∈ pre, lineErr opts x = none) →
      Parse opts (pre ++ l :: post) sf =
        .error { line := pre.length + 1,
                 kind := if badCLine l then .invalidChapterNumber
                         else .invalidVerseNumber }) := by
  have hk : lineErr opts l =
      some (if badCLine l then .invalidChapterNumber else .invalidVerseNumber) := by
    rcases h with h | h
    · rw [lineErr_badC opts l h, h]
      simp
    · rw [lineErr_badV opts l h, badV_not_badC l h]
      simp
  constructor
  · exact Parse_error_of_bad opts _ sf l (by simp) (by rw [hk]; simp)
  · intro hpre
    exact Parse_fatal opts pre l post sf _ hpre hk

/-- Witness for C5: a bad chapter number in lenient mode and a bad verse
number in strict mode are both fatal, with the 1-based line number. -/
theorem c5_numeric_failures_fatal_witness :
    Parse defaultParseOptions [str "\\id X", str "\\c x"] (str "t") =
      .error { line := 2, kind := .invalidChapterNumber } ∧
    Parse { strictMode := true, includeFootnotes := true, includeReferences := true }
        [str "\\v y Hello"] (str "t") =
      .error { line := 1, kind := .invalidVerseNumber } := by
  constructor
  · have h := (c5_numeric_failures_fatal defaultParseOptions [str "\\id X"] []
      (str "\\c x") (str "t") (Or.inl (by decide))).2 (by decide)
    have h2 : (if badCLine (str "\\c x") then ParseErrKind.invalidChapterNumber
               else .invalidVerseNumber) = .invalidChapterNumber := by decide
    rw [h2] at h
    exact h
  · have h := (c5_numeric_failures_fatal
      { strictMode := true, includeFootnotes := true, includeReferences := true }
      [] [] (str "\\v y Hello") (str "t") (Or.inr (by decide))).2 (by decide)
    have h2 : (if badCLine (str "\\v y Hello") then ParseErrKind.invalidChapterNumber
               else .invalidVerseNumber) = .invalidVerseNumber := by decide
    rw [h2] at h
    exact h

/-! ## Unknown markers: strict fails, lenient skips (claim C4) -/

theorem classify_tag_unknown (inc : Bool) (l tag content : GoStr) (h0 : ¬trimSpace l = [])
    (hm : parseMarkerCore (trimSpace l) = .ok (tag, content))
    (hrec : recognizedTag tag = false) :
    classify inc l = .unknown tag := by
  simp only [recognizedTag, Bool.or_eq_false_iff, decide_eq_false_iff_not] at hrec
  obtain ⟨⟨⟨⟨⟨⟨⟨⟨⟨⟨⟨h1, h2⟩, h3⟩, h4⟩, h5⟩, h6⟩, h7⟩, hs1⟩, hs2⟩, hs3⟩, h9⟩, h10⟩ := hrec
  have hs : ¬(tag = str "s1" ∨ tag = str "s2" ∨ tag = str "s3") := by
    intro hOr
    exact hOr.elim hs1 (fun hOr2 => hOr2.elim hs2 hs3)
  rw [classify.eq_def, if_neg h0, hm]
  simp only [if_neg h1, if_neg h2, if_neg h3, if_neg h4, if_neg h5, if_neg h6, if_neg h7,
    if_neg hs, if_neg h9, if_neg h10]

theorem lineErr_unknown (opts : ParseOptions) (l tag : GoStr)
    (hcl : classify opts.includeFootnotes l = .unknown tag) :
    lineErr opts l =
      if opts.strictMode then some (.unknownMarker tag) else none := by
  rw [lineErr.eq_def, hcl]

theorem lineStep_unknown (opts : ParseOptions) (st : ParseState) (l tag : GoStr)
    (hcl : classify opts.includeFootnotes l = .unknown tag) :
    lineStep opts st l = st := by
  rw [lineStep.eq_def, hcl]

theorem lineErr_lenient_of_strict (f r : Bool) (l : GoStr)
    (h : lineErr { strictMode := true, includeFootnotes := f, includeReferences := r } l
          = none) :
    lineErr { strictMode := false, includeFootnotes := f, includeReferences := r } l
      = none := by
  cases hc : classify f l with
  | blank => simp [lineErr, hc]
  | badMarker e => simp [lineErr, hc] at h
  | setId c => simp [lineErr, hc]
  | setHeader c => simp [lineErr, hc]
  | addToc lvl c => simp [lineErr, hc]
  | setMainTitle c => simp [lineErr, hc]
  | chapterRes res =>
    rcases res with k | num
    · simp [lineErr, hc] at h
    · simp [lineErr, hc]
  | secHead lvl t => simp [lineErr, hc]
  | refSet c => simp [lineErr, hc]
  | verseRes res =>
    rcases res with k | v
    · simp [lineErr, hc] at h
    · simp [lineErr, hc]
  | unknown tag => simp [lineErr, hc]

/-- C4, counterexample to the claim as stated: the input `\c x`, `\xyz foo`
contains a line with an unrecognized tag (`xyz`), yet in strict mode Parse
fails with InvalidChapterNumber at line 1 (not UnknownMarker at line 2),
and in lenient mode Parse does not succeed on the identical input. -/
theorem c4_counterexample :
    Parse { strictMode := true, includeFootnotes := true, includeReferences := true }
        [str "\\c x", str "\\xyz foo"] (str "t") =
      .error { line := 1, kind := .invalidChapterNumber } ∧
    Parse { strictMode := false, includeFootnotes := true, includeReferences := true }
        [str "\\c x", str "\\xyz foo"] (str "t") =
      .error { line := 1, kind := .invalidChapterNumber } := by
  exact ⟨by decide, by decide⟩

/-- C4 (amended): for an input whose other lines are processed without a
fatal error — the earlier lines clean in strict mode, the later ones in
lenient mode — a line tokenizing to an unrecognized tag makes strict-mode
Parse fail with UnknownMarker carrying that line's 1-based number and no
document, while lenient-mode Parse succeeds on the identical input and the
unrecognized line has no effect: the result equals parsing with the line
removed. -/
theorem c4_unknown_marker (f r : Bool) (pre post : List GoStr) (l sf tag content : GoStr)
    (htok : lineTag l = some (tag, content))
    (hrec : recognizedTag tag = false)
    (hpre : ∀ x ∈ pre,
      lineErr { strictMode := true, includeFootnotes := f, includeReferences := r } x = none)
    (hpost : ∀ x ∈ post,
      lineErr { strictMode := false, includeFootnotes := f, includeReferences := r } x = none) :
    Parse { strictMode := true, includeFootnotes := f, includeReferences := r }
        (pre ++ l :: post) sf =
      .error { line := pre.length + 1, kind := .unknownMarker tag } ∧
    ∃ doc,
      Parse { strictMode := false, includeFootnotes := f, includeReferences := r }
          (pre ++ l :: post) sf = .ok doc ∧
      Parse { strictMode := false, includeFootnotes := f, includeReferences := r }
          (pre ++ post) sf = .ok doc := by
  obtain ⟨h0, hm⟩ := lineTag_some l tag content htok
  have hcl : classify f l = .unknown tag := classify_tag_unknown f l tag content h0 hm hrec
  have hclS : classify (ParseOptions.mk true f r).includeFootnotes l = .unknown tag := hcl
  have hclL : classify (ParseOptions.mk false f r).includeFootnotes l = .unknown tag := hcl
  constructor
  · apply Parse_fatal _ pre l post sf _ hpre
    rw [lineErr_unknown (ParseOptions.mk true f r) l tag hclS]
    rfl
  · have hl : lineErr { strictMode := false, includeFootnotes := f, includeReferences := r }
        l = none := by
      rw [lineErr_unknown (ParseOptions.mk false f r) l tag hclL]
      rfl
    have hpre2 : ∀ x ∈ pre,
        lineErr { strictMode := false, includeFootnotes := f, includeReferences := r } x
          = none :=
      fun x hx => lineErr_lenient_of_strict f r x (hpre x hx)
    have hall : ∀ x ∈ pre ++ l :: post,
        lineErr { strictMode := false, includeFootnotes := f, includeReferences := r } x
          = none := by
      intro x hx
      rcases List.mem_append.mp hx with hx | hx
      · exact hpre2 x hx
      · rcases List.mem_cons.mp hx with rfl | hx
        · exact hl
        · exact hpost x hx
    have hall2 : ∀ x ∈ pre ++ post,
        lineErr { strictMode := false, includeFootnotes := f, includeReferences := r } x
          = none := by
      intro x hx
      rcases List.mem_append.mp hx with hx | hx
      · exact hpre2 x hx
      · exact hpost x hx
    refine ⟨_, Parse_clean _ _ sf hall, ?_⟩
    rw [Parse_clean _ _ sf hall2]
    congr 1
    rw [List.foldl_append, List.foldl_append, List.foldl_cons,
        lineStep_unknown (ParseOptions.mk false f r) _ l tag hclL]

/-- Witness for the amended C4: `\xyz foo` between two clean lines. -/
theorem c4_unknown_marker_witness :
    Parse { strictMode := true, includeFootnotes := true, includeReferences := true }
        [str "\\id X", str "\\xyz foo", str "\\c 1"] (str "t") =
      .error { line := 2, kind := .unknownMarker (str "xyz") } ∧
    ∃ doc,
      Parse { strictMode := false, includeFootnotes := true, includeReferences := true }
          [str "\\id X", str "\\xyz foo", str "\\c 1"] (str "t") = .ok doc ∧
      Parse { strictMode := false, includeFootnotes := true, includeReferences := true }
          [str "\\id X", str "\\c 1"] (str "t") = .ok doc := by
  exact c4_unknown_marker true true [str "\\id X"] [str "\\c 1"] (str "\\xyz foo") (str "t")
    (str "xyz") (str "foo") (by decide) (by decide) (by decide) (by decide)

/-! ## Empty sequences: footnotes and table of contents (claim C8) -/

theorem startChapter_doc_toc (st : ParseState) (num : Int) :
    (startChapter st num).doc.tableOfContents = st.doc.tableOfContents := by
  rcases st with ⟨d, cc, cs⟩
  rcases cc with _ | ch <;> rcases cs with _ | sec <;> simp [startChapter]

theorem startSection_doc_toc (st : ParseState) (lvl : Int) (t : GoStr) :
    (startSection st lvl t).doc.tableOfContents = st.doc.tableOfContents := by
  rcases st with ⟨d, cc, cs⟩
  rcases cc with _ | ch <;> rcases cs with _ | sec <;> simp [startSection]

theorem setReference_doc_toc (opts : ParseOptions) (st : ParseState) (c : GoStr) :
    (setReference opts st c).doc.tableOfContents = st.doc.tableOfContents := by
  rcases st with ⟨d, cc, cs⟩
  rcases hr : opts.includeReferences <;> rcases cs with _ | sec <;> simp [setReference, hr]

theorem addVerse_doc_toc (st : ParseState) (v : Verse) :
    (addVerse st v).doc.tableOfContents = st.doc.tableOfContents := by
  rcases st with ⟨d, cc, cs⟩
  rcases cs with _ | sec <;> simp [addVerse]

theorem lineStep_toc (opts : ParseOptions) (st : ParseState) (l : GoStr) :
    (lineStep opts st l).doc.tableOfContents = none ↔
      (st.doc.tableOfContents = none ∧ isTocLine l = false) := by
  cases hc : classify opts.includeFootnotes l with
  | blank =>
    cases classify_view _ _ _ hc with
    | blank h0 => simp [lineStep, hc, isTocLine, lineTag, lineTok, h0]
  | badMarker e =>
    cases classify_view _ _ _ hc with
    | badMarker e h0 hm => simp [lineStep, hc, isTocLine, lineTag, lineTok, h0, hm]
  | setId c =>
    cases classify_view _ _ _ hc with
    | setId c h0 hm =>
      simp [lineStep, hc, isTocLine, lineTag, lineTok, h0, hm,
            (by decide : ¬(str "id" = str "toc1")), (by decide : ¬(str "id" = str "toc2")),
            (by decide : ¬(str "id" = str "toc3"))]
  | setHeader c =>
    cases classify_view _ _ _ hc with
    | setHeader c h0 hm =>
      simp [lineStep, hc, isTocLine, lineTag, lineTok, h0, hm,
            (by decide : ¬(str "h" = str "toc1")), (by decide : ¬(str "h" = str "toc2")),
            (by decide : ¬(str "h" = str "toc3"))]
  | addToc lvl c =>
    cases classify_view _ _ _ hc with
    | addToc lvl c tag h0 hm htag =>
      rcases htag with ⟨ht, _⟩ | ⟨ht, _⟩ | ⟨ht, _⟩ <;> subst ht <;>
        simp [lineStep, hc, isTocLine, lineTag, lineTok, h0, hm, goAppend]
  | setMainTitle c =>
    cases classify_view _ _ _ hc with
    | setMainTitle c h0 hm =>
      simp [lineStep, hc, isTocLine, lineTag, lineTok, h0, hm,
            (by decide : ¬(str "mt1" = str "toc1")), (by decide : ¬(str "mt1" = str "toc2")),
            (by decide : ¬(str "mt1" = str "toc3"))]
  | chapterRes res =>
    cases classify_view _ _ _ hc with
    | chapterRes content h0 hm =>
      rcases hres : parseChapter content with k | num <;> rw [hres] at hc <;>
        simp [lineStep, hc, isTocLine, lineTag, lineTok, h0, hm, startChapter_doc_toc,
              (by decide : ¬(str "c" = str "toc1")), (by decide : ¬(str "c" = str "toc2")),
              (by decide : ¬(str "c" = str "toc3"))]
  | secHead lvl t =>
    cases classify_view _ _ _ hc with
    | secHead tag t h0 hm htag =>
      have h1 : ¬(tag = str "toc1") := by
        rcases htag with ht | ht | ht <;> subst ht <;> decide
      have h2 : ¬(tag = str "toc2") := by
        rcases htag with ht | ht | ht <;> subst ht <;> decide
      have h3 : ¬(tag = str "toc3") := by
        rcases htag with ht | ht | ht <;> subst ht <;> decide
      simp [lineStep, hc, isTocLine, lineTag, lineTok, h0, hm, startSection_doc_toc,
            h1, h2, h3]
  | refSet c =>
    cases classify_view _ _ _ hc with
    | refSet c h0 hm =>
      simp [lineStep, hc, isTocLine, lineTag, lineTok, h0, hm, setReference_doc_toc,
            (by decide : ¬(str "r" = str "toc1")), (by decide : ¬(str "r" = str "toc2")),
            (by decide : ¬(str "r" = str "toc3"))]
  | verseRes res =>
    cases classify_view _ _ _ hc with
    | verseRes content h0 hm =>
      rcases hres : parseVerse content opts.includeFootnotes with k | v <;> rw [hres] at hc <;>
        simp [lineStep, hc, isTocLine, lineTag, lineTok, h0, hm, addVerse_doc_toc,
              (by decide : ¬(str "v" = str "toc1")), (by decide : ¬(str "v" = str "toc2")),
              (by decide : ¬(str "v" = str "toc3"))]
  | unknown tag =>
    cases classify_view _ _ _ hc with
    | unknown tag c h0 hm hrec =>
      have h1 : ¬(tag = str "toc1") := by
        intro ht; subst ht; simp [recognizedTag] at hrec
      have h2 : ¬(tag = str "toc2") := by
        intro ht; subst ht; simp [recognizedTag] at hrec
      have h3 : ¬(tag = str "toc3") := by
        intro ht; subst ht; simp [recognizedTag] at hrec
      simp [lineStep, hc, isTocLine, lineTag, lineTok, h0, hm, h1, h2, h3]

theorem foldl_toc (opts : ParseOptions) :
    ∀ (ls : List GoStr) (st : ParseState),
      ((ls.foldl (lineStep opts) st).doc.tableOfContents = none ↔
        (st.doc.tableOfContents = none ∧ ∀ l ∈ ls, isTocLine l = false)) := by
  intro ls
  induction ls with
  | nil => intro st; simp
  | cons l ls ih =>
    intro st
    rw [List.foldl_cons, ih, lineStep_toc]
    constructor
    · rintro ⟨⟨h1, h2⟩, h3⟩
      exact ⟨h1, by intro x hx; rcases List.mem_cons.mp hx with rfl | hx
                    exacts [h2, h3 x hx]⟩
    · rintro ⟨h1, h2⟩
      exact ⟨⟨h1, h2 l (by simp)⟩, fun x hx => h2 x (by simp [hx])⟩

theorem finalFlush_toc (st : ParseState) :
    (finalFlush st).tableOfContents = st.doc.tableOfContents := by
  rcases st with ⟨d, cc, cs⟩
  rcases cc with _ | ch <;> rcases cs with _ | sec <;> simp [finalFlush]

theorem foldr_append_acc (g : Chapter → List Verse) :
    ∀ (l : List Chapter) (b : List Verse),
      l.foldr (fun a acc => g a ++ acc) b = l.foldr (fun a acc => g a ++ acc) [] ++ b := by
  intro l
  induction l with
  | nil => intro b; simp
  | cons a t ih =>
    intro b
    simp only [List.foldr_cons, ih b, List.append_assoc]

theorem foldr_append_acc_sec (g : Section → List Verse) :
    ∀ (l : List Section) (b : List Verse),
      l.foldr (fun a acc => g a ++ acc) b = l.foldr (fun a acc => g a ++ acc) [] ++ b := by
  intro l
  induction l with
  | nil => intro b; simp
  | cons a t ih =>
    intro b
    simp only [List.foldr_cons, ih b, List.append_assoc]

theorem chapterVerses_app (ch : Chapter) (sec : Section) :
    chapterVerses { ch with sections := ch.sections ++ [sec] } =
      chapterVerses ch ++ sec.verses := by
  rw [chapterVerses, chapterVerses, List.foldr_append]
  simp only [List.foldr_cons, List.foldr_nil, List.append_nil]
  exact foldr_append_acc_sec _ ch.sections sec.verses

theorem docVerses_app (d : Document) (ch : Chapter) :
    docVerses { d with chapters := d.chapters ++ [ch] } =
      docVerses d ++ chapterVerses ch := by
  rw [docVerses, docVerses]
  simp only [List.foldr_append, List.foldr_cons, List.foldr_nil, List.append_nil]
  exact foldr_append_acc _ d.chapters (chapterVerses ch)

theorem mem_foldr_append_sec (g : Section → List Verse) :
    ∀ (l : List Section) (a : Section), a ∈ l → ∀ b ∈ g a,
      b ∈ l.foldr (fun x acc => g x ++ acc) [] := by
  intro l
  induction l with
  | nil => intro a ha; simp at ha
  | cons x t ih =>
    intro a ha b hb
    rcases List.mem_cons.mp ha with rfl | ha
    · simp only [List.foldr_cons, List.mem_append]
      exact Or.inl hb
    · simp only [List.foldr_cons, List.mem_append]
      exact Or.inr (ih a ha b hb)

theorem mem_foldr_append_ch (g : Chapter → List Verse) :
    ∀ (l : List Chapter) (a : Chapter), a ∈ l → ∀ b ∈ g a,
      b ∈ l.foldr (fun x acc => g x ++ acc) [] := by
  intro l
  induction l with
  | nil => intro a ha; simp at ha
  | cons x t ih =>
    intro a ha b hb
    rcases List.mem_cons.mp ha with rfl | ha
    · simp only [List.foldr_cons, List.mem_append]
      exact Or.inl hb
    · simp only [List.foldr_cons, List.mem_append]
      exact Or.inr (ih a ha b hb)

theorem mem_docVerses (d : Document) (ch : Chapter) (sec : Section) (v : Verse)
    (hch : ch ∈ d.chapters) (hs : sec ∈ ch.sections) (hv : v ∈ sec.verses) :
    v ∈ docVerses d :=
  mem_foldr_append_ch _ d.chapters ch hch v
    (mem_foldr_append_sec _ ch.sections sec hs v hv)

theorem chapterVerses_mk_nil (n : Int) : chapterVerses { number := n, sections := [] } = [] :=
  rfl

theorem stateVerses_startChapter (st : ParseState) (num : Int) :
    ∀ v ∈ stateVerses (startChapter st num), v ∈ stateVerses st := by
  rcases st with ⟨d, cc, cs⟩
  rcases cc with _ | ch <;> rcases cs with _ | sec <;> intro v hv <;>
    simp only [startChapter, stateVerses, docVerses_app, chapterVerses_app,
      chapterVerses_mk_nil, List.append_nil, List.mem_append] at hv ⊢ <;>
    tauto

theorem stateVerses_startSection (st : ParseState) (lvl : Int) (t : GoStr) :
    ∀ v ∈ stateVerses (startSection st lvl t), v ∈ stateVerses st := by
  rcases st with ⟨d, cc, cs⟩
  rcases cc with _ | ch <;> rcases cs with _ | sec <;> intro v hv <;>
    simp only [startSection, stateVerses, docVerses_app, chapterVerses_app,
      chapterVerses_mk_nil, List.append_nil, List.mem_append] at hv ⊢ <;>
    tauto

theorem stateVerses_setReference (opts : ParseOptions) (st : ParseState) (c : GoStr) :
    ∀ v ∈ stateVerses (setReference opts st c), v ∈ stateVerses st := by
  rcases st with ⟨d, cc, cs⟩
  rcases hr : opts.includeReferences <;> rcases cs with _ | sec <;> intro v hv <;>
    simp only [setReference, hr, stateVerses, List.mem_append, Bool.false_eq_true,
      if_false, if_true] at hv ⊢ <;>
    tauto

theorem stateVerses_addVerse (st : ParseState) (v' : Verse) :
    ∀ v ∈ stateVerses (addVerse st v'), v ∈ stateVerses st ∨ v = v' := by
  rcases st with ⟨d, cc, cs⟩
  rcases cs with _ | sec <;> intro v hv <;>
    simp only [addVerse, stateVerses, List.mem_append, List.mem_singleton] at hv ⊢ <;>
    tauto

theorem finalFlush_verses (st : ParseState) :
    ∀ v ∈ docVerses (finalFlush st), v ∈ stateVerses st := by
  rcases st with ⟨d, cc, cs⟩
  rcases cc with _ | ch <;> rcases cs with _ | sec <;> intro v hv <;>
    simp only [finalFlush, stateVerses, docVerses_app, chapterVerses_app,
      chapterVerses_mk_nil, List.append_nil, List.mem_append] at hv ⊢ <;>
    tauto

theorem parseVerse_footnotes_isSome (content : GoStr) (b : Bool) (v : Verse)
    (h : parseVerse content b = .ok v) : v.footnotes.isSome = true := by
  rw [parseVerse.eq_def] at h
  cases ha : goAtoi (splitN2Space content).1 with
  | none => rw [ha] at h; simp at h
  | some n =>
    rw [ha] at h
    cases b with
    | true =>
      simp only [if_true] at h
      simp only [Except.ok.injEq] at h
      rw [← h]
      rfl
    | false =>
      simp only [Bool.false_eq_true, if_false, Except.ok.injEq] at h
      rw [← h]
      rfl

theorem lineStep_versesOK (opts : ParseOptions) (st : ParseState) (l : GoStr)
    (h : ∀ v ∈ stateVerses st, v.footnotes.isSome = true) :
    ∀ v ∈ stateVerses (lineStep opts st l), v.footnotes.isSome = true := by
  cases hc : classify opts.includeFootnotes l with
  | blank => simp only [lineStep, hc]; exact h
  | badMarker e => simp only [lineStep, hc]; exact h
  | setId c =>
    simp only [lineStep, hc]
    intro v hv
    apply h
    simpa [stateVerses, docVerses] using hv
  | setHeader c =>
    simp only [lineStep, hc]
    intro v hv
    apply h
    simpa [stateVerses, docVerses] using hv
  | addToc lvl c =>
    simp only [lineStep, hc]
    intro v hv
    apply h
    simpa [stateVerses, docVerses] using hv
  | setMainTitle c =>
    simp only [lineStep, hc]
    intro v hv
    apply h
    simpa [stateVerses, docVerses] using hv
  | chapterRes res =>
    rcases res with k | num
    · simp only [lineStep, hc]; exact h
    · simp only [lineStep, hc]
      intro v hv
      exact h v (stateVerses_startChapter st num v hv)
  | secHead lvl t =>
    simp only [lineStep, hc]
    intro v hv
    exact h v (stateVerses_startSection st lvl t v hv)
  | refSet c =>
    simp only [lineStep, hc]
    intro v hv
    exact h v (stateVerses_setReference opts st c v hv)
  | verseRes res =>
    cases classify_view _ _ _ hc with
    | verseRes content h0 hm =>
      rcases hres : parseVerse content opts.includeFootnotes with k | vNew
      · rw [hres] at hc
        simp only [lineStep, hc]
        exact h
      · rw [hres] at hc
        simp only [lineStep, hc]
        intro v hv
        rcases stateVerses_addVerse st vNew v hv with hv2 | rfl
        · exact h v hv2
        · exact parseVerse_footnotes_isSome content opts.includeFootnotes v hres
  | unknown tag => simp only [lineStep, hc]; exact h

theorem foldl_versesOK (opts : ParseOptions) :
    ∀ (ls : List GoStr) (st : ParseState),
      (∀ v ∈ stateVerses st, v.footnotes.isSome = true) →
      ∀ v ∈ stateVerses (ls.foldl (lineStep opts) st), v.footnotes.isSome = true := by
  intro ls
  induction ls with
  | nil => intro st h; exact h
  | cons l ls ih =>
    intro st h
    rw [List.foldl_cons]
    exact ih _ (lineStep_versesOK opts st l h)

/-- C8, counterexample to the claim as stated: an input with no toc markers
parses to a document whose `tableOfContents` is null (the Go nil slice),
not an empty sequence — `Parse` initializes `Chapters` with `make` but
leaves `TableOfContents` at its nil zero value. -/
theorem c8_counterexample :
    ∃ doc, Parse defaultParseOptions [str "\\id X"] (str "t") = .ok doc ∧
      doc.tableOfContents = none := by
  refine ⟨{ id := str "X", header := [], tableOfContents := none, mainTitle := [],
            chapters := [], sourceFile := str "t" }, by decide, rfl⟩

/-- C8 (amended): for every successfully parsed input, every verse's
footnote sequence is a real (non-null) sequence — empty when no footnotes
were found — but the document's `tableOfContents` is null exactly when no
toc1/toc2/toc3 marker line was encountered; it is non-null only after the
first toc marker. -/
theorem c8_footnotes_nonnull_toc_null (opts : ParseOptions) (lines : List GoStr)
    (sf : GoStr) (doc : Document) (h : Parse opts lines sf = .ok doc) :
    (∀ ch ∈ doc.chapters, ∀ sec ∈ ch.sections, ∀ v ∈ sec.verses,
      v.footnotes.isSome = true) ∧
    (doc.tableOfContents = none ↔ ∀ l ∈ lines, isTocLine l = false) := by
  obtain ⟨hclean, hdoc⟩ := Parse_ok_clean opts lines sf doc h
  subst hdoc
  constructor
  · intro ch hch sec hs v hv
    have hmem : v ∈ docVerses (finalFlush (lines.foldl (lineStep opts) (initState sf))) :=
      mem_docVerses _ ch sec v hch hs hv
    have hst := finalFlush_verses _ v hmem
    refine foldl_versesOK opts lines (initState sf) ?_ v hst
    intro w hw
    simp [stateVerses, docVerses, initState] at hw
  · rw [finalFlush_toc, foldl_toc]
    simp [initState]

/-- Witness for the amended C8: a parsed document with one verse has a
non-null empty footnote list, and a null table of contents iff the input
had no toc lines. -/
theorem c8_footnotes_nonnull_toc_null_witness :
    (∀ ch ∈ ({ id := [], header := [], tableOfContents := none, mainTitle := [],
               chapters := [{ number := 1,
                              sections := [{ level := 1, title := [], reference := [],
                                             verses := [{ number := 1, text := str "Hi",
                                                          footnotes := some [] }] }] }],
               sourceFile := str "t" } : Document).chapters,
      ∀ sec ∈ ch.sections, ∀ v ∈ sec.verses, v.footnotes.isSome = true) ∧
    (({ id := [], header := [], tableOfContents := none, mainTitle := [],
        chapters := [{ number := 1,
                       sections := [{ level := 1, title := [], reference := [],
                                      verses := [{ number := 1, text := str "Hi",
                                                   footnotes := some [] }] }] }],
        sourceFile := str "t" } : Document).tableOfContents = none ↔
      ∀ l ∈ [str "\\c 1", str "\\v 1 Hi"], isTocLine l = false) := by
  have hp : Parse defaultParseOptions [str "\\c 1", str "\\v 1 Hi"] (str "t") =
      .ok { id := [], header := [], tableOfContents := none, mainTitle := [],
            chapters := [{ number := 1,
                           sections := [{ level := 1, title := [], reference := [],
                                          verses := [{ number := 1, text := str "Hi",
                                                       footnotes := some [] }] }] }],
            sourceFile := str "t" } := by decide
  have hc := c8_footnotes_nonnull_toc_null defaultParseOptions _ _ _ hp
  exact ⟨hc.1, hc.2⟩

/-! ## Pre-chapter content is discarded (claim C10) -/

theorem startChapter_noChapter (st : ParseState) (num : Int)
    (h : st.currentChapter = none) :
    startChapter st num =
      { doc := st.doc, currentChapter := some { number := num, sections := [] },
        currentSection := none } := by
  rcases st with ⟨d, cc, cs⟩
  subst h
  rcases cs with _ | sec <;> simp [startChapter]

theorem startSection_noChapter (st : ParseState) (lvl : Int) (t : GoStr)
    (h : st.currentChapter = none) :
    startSection st lvl t =
      { doc := st.doc, currentChapter := none,
        currentSection := some { level := lvl, title := t, reference := [],
                                 verses := [] } } := by
  rcases st with ⟨d, cc, cs⟩
  subst h
  rcases cs with _ | sec <;> simp [startSection]

theorem setReference_state (opts : ParseOptions) (st : ParseState) (c : GoStr) :
    (setReference opts st c).doc = st.doc ∧
    (setReference opts st c).currentChapter = st.currentChapter := by
  rcases st with ⟨d, cc, cs⟩
  rcases hr : opts.includeReferences <;> rcases cs with _ | sec <;>
    simp [setReference, hr]

theorem addVerse_state (st : ParseState) (v : Verse) :
    (addVerse st v).doc = st.doc ∧ (addVerse st v).currentChapter = st.currentChapter := by
  rcases st with ⟨d, cc, cs⟩
  rcases cs with _ | sec <;> simp [addVerse]

theorem finalFlush_rel (st1 st2 : ParseState)
    (h : st1 = st2 ∨ (st1.doc = st2.doc ∧ st1.currentChapter = none ∧
          st2.currentChapter = none)) :
    finalFlush st1 = finalFlush st2 := by
  rcases h with rfl | ⟨hd, h1, h2⟩
  · rfl
  · rcases st1 with ⟨d1, cc1, cs1⟩
    rcases st2 with ⟨d2, cc2, cs2⟩
    simp only [] at hd h1 h2
    subst hd h1 h2
    rcases cs1 with _ | s1 <;> rcases cs2 with _ | s2 <;> simp [finalFlush]

theorem lineStep_rel (opts : ParseOptions) (l : GoStr) (st1 st2 : ParseState)
    (h : st1 = st2 ∨ (st1.doc = st2.doc ∧ st1.currentChapter = none ∧
          st2.currentChapter = none)) :
    lineStep opts st1 l = lineStep opts st2 l ∨
      ((lineStep opts st1 l).doc = (lineStep opts st2 l).doc ∧
       (lineStep opts st1 l).currentChapter = none ∧
       (lineStep opts st2 l).currentChapter = none) := by
  rcases h with rfl | ⟨hd, h1, h2⟩
  · exact Or.inl rfl
  · cases hc : classify opts.includeFootnotes l with
    | blank => simp only [lineStep, hc]; exact Or.inr ⟨hd, h1, h2⟩
    | badMarker e => simp only [lineStep, hc]; exact Or.inr ⟨hd, h1, h2⟩
    | setId c =>
      simp only [lineStep, hc]
      exact Or.inr ⟨by rw [hd], h1, h2⟩
    | setHeader c =>
      simp only [lineStep, hc]
      exact Or.inr ⟨by rw [hd], h1, h2⟩
    | addToc lvl c =>
      simp only [lineStep, hc]
      exact Or.inr ⟨by rw [hd], h1, h2⟩
    | setMainTitle c =>
      simp only [lineStep, hc]
      exact Or.inr ⟨by rw [hd], h1, h2⟩
    | chapterRes res =>
      rcases res with k | num
      · simp only [lineStep, hc]; exact Or.inr ⟨hd, h1, h2⟩
      · simp only [lineStep, hc]
        rw [startChapter_noChapter st1 num h1, startChapter_noChapter st2 num h2, hd]
        exact Or.inl rfl
    | secHead lvl t =>
      simp only [lineStep, hc]
      rw [startSection_noChapter st1 lvl t h1, startSection_noChapter st2 lvl t h2, hd]
      exact Or.inl rfl
    | refSet c =>
      simp only [lineStep, hc]
      refine Or.inr ⟨?_, ?_, ?_⟩
      · rw [(setReference_state opts st1 c).1, (setReference_state opts st2 c).1, hd]
      · rw [(setReference_state opts st1 c).2, h1]
      · rw [(setReference_state opts st2 c).2, h2]
    | verseRes res =>
      rcases res with k | v
      · simp only [lineStep, hc]; exact Or.inr ⟨hd, h1, h2⟩
      · simp only [lineStep, hc]
        refine Or.inr ⟨?_, ?_, ?_⟩
        · rw [(addVerse_state st1 v).1, (addVerse_state st2 v).1, hd]
        · rw [(addVerse_state st1 v).2, h1]
        · rw [(addVerse_state st2 v).2, h2]
    | unknown tag => simp only [lineStep, hc]; exact Or.inr ⟨hd, h1, h2⟩

theorem foldl_rel (opts : ParseOptions) :
    ∀ (ls : List GoStr) (st1 st2 : ParseState),
      (st1 = st2 ∨ (st1.doc = st2.doc ∧ st1.currentChapter = none ∧
        st2.currentChapter = none)) →
      (ls.foldl (lineStep opts) st1 = ls.foldl (lineStep opts) st2 ∨
        ((ls.foldl (lineStep opts) st1).doc = (ls.foldl (lineStep opts) st2).doc ∧
         (ls.foldl (lineStep opts) st1).currentChapter = none ∧
         (ls.foldl (lineStep opts) st2).currentChapter = none)) := by
  intro ls
  induction ls with
  | nil => intro st1 st2 h; exact h
  | cons l ls ih =>
    intro st1 st2 h
    rw [List.foldl_cons, List.foldl_cons]
    exact ih _ _ (lineStep_rel opts l st1 st2 h)

theorem lineStep_prechapter_keep (opts : ParseOptions) (l : GoStr) (st1 st2 : ParseState)
    (hC : isCLine l = false) (hd : st1.doc = st2.doc)
    (h1 : st1.currentChapter = none) (h2 : st2.currentChapter = none) :
    (lineStep opts st1 l).doc = (lineStep opts st2 l).doc ∧
    (lineStep opts st1 l).currentChapter = none ∧
    (lineStep opts st2 l).currentChapter = none := by
  cases hc : classify opts.includeFootnotes l with
  | blank => simp only [lineStep, hc]; exact ⟨hd, h1, h2⟩
  | badMarker e => simp only [lineStep, hc]; exact ⟨hd, h1, h2⟩
  | setId c => simp only [lineStep, hc]; exact ⟨by rw [hd], h1, h2⟩
  | setHeader c => simp only [lineStep, hc]; exact ⟨by rw [hd], h1, h2⟩
  | addToc lvl c => simp only [lineStep, hc]; exact ⟨by rw [hd], h1, h2⟩
  | setMainTitle c => simp only [lineStep, hc]; exact ⟨by rw [hd], h1, h2⟩
  | chapterRes res =>
    cases classify_view _ _ _ hc with
    | chapterRes content h0 hm => simp [isCLine, lineTag, lineTok, h0, hm] at hC
  | secHead lvl t =>
    simp only [lineStep, hc]
    rw [startSection_noChapter st1 lvl t h1, startSection_noChapter st2 lvl t h2]
    exact ⟨hd, rfl, rfl⟩
  | refSet c =>
    simp only [lineStep, hc]
    exact ⟨by rw [(setReference_state opts st1 c).1, (setReference_state opts st2 c).1, hd],
           by rw [(setReference_state opts st1 c).2, h1],
           by rw [(setReference_state opts st2 c).2, h2]⟩
  | verseRes res =>
    rcases res with k | v
    · simp only [lineStep, hc]; exact ⟨hd, h1, h2⟩
    · simp only [lineStep, hc]
      exact ⟨by rw [(addVerse_state st1 v).1, (addVerse_state st2 v).1, hd],
             by rw [(addVerse_state st1 v).2, h1],
             by rw [(addVerse_state st2 v).2, h2]⟩
  | unknown tag => simp only [lineStep, hc]; exact ⟨hd, h1, h2⟩

theorem lineStep_vs_skip (opts : ParseOptions) (l : GoStr) (st : ParseState)
    (hVS : isVSLine l = true) (h1 : st.currentChapter = none) :
    (lineStep opts st l).doc = st.doc ∧ (lineStep opts st l).currentChapter = none := by
  cases hc : classify opts.includeFootnotes l with
  | blank =>
    cases classify_view _ _ _ hc with
    | blank h0 => simp [isVSLine, lineTag, lineTok, h0] at hVS
  | badMarker e =>
    cases classify_view _ _ _ hc with
    | badMarker e h0 hm => simp [isVSLine, lineTag, lineTok, h0, hm] at hVS
  | setId c =>
    cases classify_view _ _ _ hc with
    | setId c h0 hm =>
      simp [isVSLine, lineTag, lineTok, h0, hm, (by decide : ¬(str "id" = str "v")),
        (by decide : ¬(str "id" = str "s1")), (by decide : ¬(str "id" = str "s2")),
        (by decide : ¬(str "id" = str "s3"))] at hVS
  | setHeader c =>
    cases classify_view _ _ _ hc with
    | setHeader c h0 hm =>
      simp [isVSLine, lineTag, lineTok, h0, hm, (by decide : ¬(str "h" = str "v")),
        (by decide : ¬(str "h" = str "s1")), (by decide : ¬(str "h" = str "s2")),
        (by decide : ¬(str "h" = str "s3"))] at hVS
  | addToc lvl c =>
    cases classify_view _ _ _ hc with
    | addToc lvl c tag h0 hm htag =>
      rcases htag with ⟨ht, _⟩ | ⟨ht, _⟩ | ⟨ht, _⟩ <;> subst ht <;>
        simp [isVSLine, lineTag, lineTok, h0, hm,
          (by decide : ¬(str "toc1" = str "v")), (by decide : ¬(str "toc1" = str "s1")),
          (by decide : ¬(str "toc1" = str "s2")), (by decide : ¬(str "toc1" = str "s3")),
          (by decide : ¬(str "toc2" = str "v")), (by decide : ¬(str "toc2" = str "s1")),
          (by decide : ¬(str "toc2" = str "s2")), (by decide : ¬(str "toc2" = str "s3")),
          (by decide : ¬(str "toc3" = str "v")), (by decide : ¬(str "toc3" = str "s1")),
          (by decide : ¬(str "toc3" = str "s2")), (by decide : ¬(str "toc3" = str "s3"))]
          at hVS
  | setMainTitle c =>
    cases classify_view _ _ _ hc with
    | setMainTitle c h0 hm =>
      simp [isVSLine, lineTag, lineTok, h0, hm, (by decide : ¬(str "mt1" = str "v")),
        (by decide : ¬(str "mt1" = str "s1")), (by decide : ¬(str "mt1" = str "s2")),
        (by decide : ¬(str "mt1" = str "s3"))] at hVS
  | chapterRes res =>
    cases classify_view _ _ _ hc with
    | chapterRes content h0 hm =>
      simp [isVSLine, lineTag, lineTok, h0, hm, (by decide : ¬(str "c" = str "v")),
        (by decide : ¬(str "c" = str "s1")), (by decide : ¬(str "c" = str "s2")),
        (by decide : ¬(str "c" = str "s3"))] at hVS
  | secHead lvl t =>
    simp only [lineStep, hc]
    rw [startSection_noChapter st lvl t h1]
    exact ⟨rfl, rfl⟩
  | refSet c =>
    cases classify_view _ _ _ hc with
    | refSet c h0 hm =>
      simp [isVSLine, lineTag, lineTok, h0, hm, (by decide : ¬(str "r" = str "v")),
        (by decide : ¬(str "r" = str "s1")), (by decide : ¬(str "r" = str "s2")),
        (by decide : ¬(str "r" = str "s3"))] at hVS
  | verseRes res =>
    rcases res with k | v
    · simp [lineStep, hc, h1]
    · simp only [lineStep, hc]
      exact ⟨(addVerse_state st v).1, by rw [(addVerse_state st v).2, h1]⟩
  | unknown tag =>
    cases classify_view _ _ _ hc with
    | unknown tag c h0 hm hrec =>
      simp only [isVSLine, lineTag, lineTok, if_neg h0, hm, Bool.or_eq_true,
        decide_eq_true_eq] at hVS
      rcases hVS with ((ht | ht) | ht) | ht <;> subst ht <;> exact absurd hrec (by decide)

theorem prechapter_foldl (opts : ParseOptions) :
    ∀ (pre : List GoStr), (∀ l ∈ pre, isCLine l = false) →
      ∀ (st1 st2 : ParseState), st1.doc = st2.doc → st1.currentChapter = none →
        st2.currentChapter = none →
        ((pre.foldl (lineStep opts) st1).doc =
          ((pre.filter (fun l => !isVSLine l)).foldl (lineStep opts) st2).doc ∧
        (pre.foldl (lineStep opts) st1).currentChapter = none ∧
        ((pre.filter (fun l => !isVSLine l)).foldl (lineStep opts) st2).currentChapter
          = none) := by
  intro pre
  induction pre with
  | nil => intro _ st1 st2 hd h1 h2; exact ⟨hd, h1, h2⟩
  | cons l pre ih =>
    intro hnoC st1 st2 hd h1 h2
    by_cases hVS : isVSLine l = true
    · have hb : (!isVSLine l) = false := by rw [hVS]; rfl
      have hfil : (l :: pre).filter (fun x => !isVSLine x) =
          pre.filter (fun x => !isVSLine x) := by
        rw [List.filter_cons, hb]
        simp
      rw [hfil, List.foldl_cons]
      have hskip := lineStep_vs_skip opts l st1 hVS h1
      exact ih (fun x hx => hnoC x (by simp [hx])) _ st2 (hskip.1.trans hd) hskip.2 h2
    · have hVSf : isVSLine l = false := by rwa [Bool.not_eq_true] at hVS
      have hb : (!isVSLine l) = true := by rw [hVSf]; rfl
      have hfil : (l :: pre).filter (fun x => !isVSLine x) =
          l :: pre.filter (fun x => !isVSLine x) := by
        rw [List.filter_cons, hb]
        simp
      rw [hfil, List.foldl_cons, List.foldl_cons]
      have hkeep := lineStep_prechapter_keep opts l st1 st2 (hnoC l (by simp)) hd h1 h2
      exact ih (fun x hx => hnoC x (by simp [hx])) _ _ hkeep.1 hkeep.2.1 hkeep.2.2

/-- C10: `\\v` and `\\s1`/`\\s2`/`\\s3` markers before the first `\\c`
marker are silently discarded: both flush sites append an open section only
when a chapter is also open, so on any successful parse the result is
unchanged when those pre-chapter verse and section lines are removed, and
no error is reported. -/
theorem c10_prechapter_discarded (opts : ParseOptions) (pre rest : List GoStr)
    (sf : GoStr) (doc : Document)
    (hnoC : ∀ l ∈ pre, isCLine l = false)
    (h : Parse opts (pre ++ rest) sf = .ok doc) :
    Parse opts (pre.filter (fun l => !isVSLine l) ++ rest) sf = .ok doc := by
  obtain ⟨hclean, hdoc⟩ := Parse_ok_clean opts _ sf doc h
  subst hdoc
  have hcleanF : ∀ x ∈ pre.filter (fun l => !isVSLine l) ++ rest,
      lineErr opts x = none := by
    intro x hx
    rcases List.mem_append.mp hx with hx | hx
    · exact hclean x (List.mem_append.mpr (Or.inl (List.mem_of_mem_filter hx)))
    · exact hclean x (List.mem_append.mpr (Or.inr hx))
  rw [Parse_clean opts _ sf hcleanF]
  have hpre := prechapter_foldl opts pre hnoC (initState sf) (initState sf) rfl rfl rfl
  have hrel := foldl_rel opts rest _ _ (Or.inr ⟨hpre.1.symm, hpre.2.2, hpre.2.1⟩)
  rw [List.foldl_append, List.foldl_append]
  exact congrArg Except.ok (finalFlush_rel _ _ hrel)

/-- Witness for C10: a section and a verse before the first chapter are
dropped without error; removing them gives the identical document. -/
theorem c10_prechapter_discarded_witness :
    Parse defaultParseOptions
        [str "\\s1 T", str "\\v 1 X", str "\\c 1", str "\\v 1 Y"] (str "t") =
      .ok { id := [], header := [], tableOfContents := none, mainTitle := [],
            chapters := [{ number := 1,
                           sections := [{ level := 1, title := [], reference := [],
                                          verses := [{ number := 1, text := str "Y",
                                                       footnotes := some [] }] }] }],
            sourceFile := str "t" } ∧
    Parse defaultParseOptions [str "\\c 1", str "\\v 1 Y"] (str "t") =
      .ok { id := [], header := [], tableOfContents := none, mainTitle := [],
            chapters := [{ number := 1,
                           sections := [{ level := 1, title := [], reference := [],
                                          verses := [{ number := 1, text := str "Y",
                                                       footnotes := some [] }] }] }],
            sourceFile := str "t" } := by
  have hp : Parse defaultParseOptions
      ([str "\\s1 T", str "\\v 1 X"] ++ [str "\\c 1", str "\\v 1 Y"]) (str "t") =
      .ok { id := [], header := [], tableOfContents := none, mainTitle := [],
            chapters := [{ number := 1,
                           sections := [{ level := 1, title := [], reference := [],
                                          verses := [{ number := 1, text := str "Y",
                                                       footnotes := some [] }] }] }],
            sourceFile := str "t" } := by decide
  have h := c10_prechapter_discarded defaultParseOptions [str "\\s1 T", str "\\v 1 X"]
    [str "\\c 1", str "\\v 1 Y"] (str "t") _ (by decide) hp
  have hfil : ([str "\\s1 T", str "\\v 1 X"].filter (fun l => !isVSLine l)) =
      ([] : List GoStr) := by decide
  rw [hfil] at h
  exact ⟨hp, h⟩

end Usfmp
